import Mathlib

/-!
# process-exporter: reading `/proc/net/{tcp,udp}{,6}` (`proc/read_net.go`)

A shallow embedding of `NewNetIPSocket` and `parseNetIPSocketLine` together
with the few standard-library functions they call (`strconv.ParseUint`,
`strings.Split`, `strings.Fields`, `strings.Join`, `strings.Contains`,
`fmt.Errorf`, `errors.Is`), followed by theorems about them.

Conventions of the embedding

* A Go `string` is a Lean `String`, read as a sequence of code points (valid
  UTF-8 text).  `strconv.ParseUint` walks over bytes; since every byte of a
  multi-byte UTF-8 sequence is at least `0x80`, and such a byte is rejected
  as a non-digit exactly as the code point itself is rejected here, walking
  over code points gives the same answers.
* `uint64` is a `Nat`; arithmetic that may wrap is written with an explicit
  `% 2 ^ 64`.
* A Go function returning `(T, error)` which returns `nil, err` on every
  failing path is an `Except Fault T`; a `Fault` is either the returned
  `error` or a run-time panic (a slice index out of range).
* `*uint64` is an `Option Nat` (`none` is `nil`).
-/

namespace Proc

/-! ## Errors -/

/-- Package-level error values created once by `errors.New`; Go compares them
by identity.  `ErrFileParse` and `ErrFileRead` are declared in `read_net.go`,
`ErrSyntax` and `ErrRange` in `strconv`. -/
inductive Sentinel
  | ErrFileParse
  | ErrFileRead
  | ErrSyntax
  | ErrRange
  deriving DecidableEq, Repr

/-- The text given to `errors.New` for each package-level error value. -/
def Sentinel.text : Sentinel → String
  | .ErrFileParse => "Error Parsing File"
  | .ErrFileRead => "Error Reading File"
  | .ErrSyntax => "invalid syntax"
  | .ErrRange => "value out of range"

/-- A piece of an error message.  The calls of `strconv.Quote` (verb `%q` on a
string), of `strconv.QuoteRune` (verb `%q` on an integer) and the text of a
`syscall.Errno` are kept unevaluated: they depend on Unicode and platform
tables which are not reproduced here. -/
inductive Piece
  | text (s : String)
  | quote (s : String)
  | quoteRune (r : Nat)
  | errnoText (n : Nat)
  | badVerb (verb : Char)
  deriving DecidableEq, Repr

/-- An error message: the concatenation of its pieces. -/
abbrev Msg := List Piece

/-- Go `error` values that this program can produce or receive. -/
inductive GoError
  /-- one of the package-level values -/
  | sentinel (s : Sentinel)
  /-- a fresh `errors.New(msg)`, or `fmt.Errorf` without a `%w` verb -/
  | errorString (msg : Msg)
  /-- a `*strconv.NumError` -/
  | numError (Func : String) (Num : String) (Err : GoError)
  /-- a `*fmt.wrapError`: `fmt.Errorf` with a `%w` verb -/
  | wrapError (msg : Msg) (err : GoError)
  /-- a `syscall.Errno` -/
  | errno (n : Nat)
  /-- a `*fs.PathError`, as returned by `os.Open` -/
  | pathError (Op : String) (Path : String) (Err : GoError)
  deriving DecidableEq, Repr

/-- The method `Error()`. -/
def GoError.Error : GoError → Msg
  | .sentinel s => [.text s.text]
  | .errorString msg => msg
  | .numError fn num err =>
      [.text ("strconv." ++ fn ++ ": parsing "), .quote num, .text ": "] ++ err.Error
  | .wrapError msg _ => msg
  | .errno n => [.errnoText n]
  | .pathError op path err => [.text (op ++ " " ++ path ++ ": ")] ++ err.Error

/-- The method `Unwrap()`, where the dynamic type has one. -/
def GoError.Unwrap : GoError → Option GoError
  | .numError _ _ err => some err
  | .wrapError _ err => some err
  | .pathError _ _ err => some err
  | _ => none

/-- `errors.Is(err, target)` for a package-level `target`: walk the `Unwrap`
chain and compare each link with `target` by identity.  None of the dynamic
types above has an `Is` method that answers for the four values of
`Sentinel`. -/
def errorsIs : GoError → Sentinel → Bool
  | .sentinel s, target => decide (s = target)
  | .errorString _, _ => false
  | .numError _ _ err, target => errorsIs err target
  | .wrapError _ err, target => errorsIs err target
  | .errno _, _ => false
  | .pathError _ _ err, target => errorsIs err target

/-- Render a message, given the three library functions it leaves open. -/
def Msg.render (quote : String → String) (quoteRune : Nat → String)
    (errnoText : Nat → String) : Msg → String
  | [] => ""
  | .text s :: rest => s ++ Msg.render quote quoteRune errnoText rest
  | .quote s :: rest => quote s ++ Msg.render quote quoteRune errnoText rest
  | .quoteRune r :: rest => quoteRune r ++ Msg.render quote quoteRune errnoText rest
  | .errnoText n :: rest => errnoText n ++ Msg.render quote quoteRune errnoText rest
  | .badVerb v :: rest =>
      ("%!" ++ String.singleton v ++ "(BADVERB)") ++ Msg.render quote quoteRune errnoText rest

/-! ## `fmt.Errorf` -/

/-- An operand of `fmt.Errorf`. -/
inductive Arg
  | str (s : String)
  | uint (n : Nat)
  | err (e : GoError)
  deriving DecidableEq, Repr

/-- One operand under one verb.  Only the combinations that occur in
`read_net.go` are spelled out: an error under `%w`, `%s` or `%v` prints its
`Error()`, a string under `%s` or `%v` prints itself, a string under `%q` is
quoted, an integer under `%q` prints as a quoted rune. -/
def formatArg (verb : Char) : Arg → Msg
  | .err e => if verb = 'w' ∨ verb = 's' ∨ verb = 'v' then e.Error else [.badVerb verb]
  | .str s =>
      if verb = 's' ∨ verb = 'v' then [.text s]
      else if verb = 'q' then [.quote s] else [.badVerb verb]
  | .uint n => if verb = 'q' then [.quoteRune n] else [.badVerb verb]

/-- The literal text read since the last verb (`lit`, in reverse) as a piece. -/
def flush (lit : List Char) : Msg :=
  if lit = [] then [] else [.text (String.mk lit.reverse)]

/-- The scan of the format string: literal text is copied, `%%` is a percent
sign, `%` followed by a verb consumes the next operand.  Flags, widths and
surplus operands do not occur in `read_net.go` and are not modelled. -/
def doPrintf : List Char → List Arg → List Char → Msg
  | [], _, lit => flush lit
  | '%' :: '%' :: rest, as, lit => doPrintf rest as ('%' :: lit)
  | '%' :: verb :: rest, a :: as, lit => flush lit ++ formatArg verb a ++ doPrintf rest as []
  | '%' :: verb :: rest, [], lit =>
      flush lit ++ .text ("%!" ++ String.singleton verb ++ "(MISSING)") :: doPrintf rest [] []
  | c :: rest, as, lit => doPrintf rest as (c :: lit)

/-- The operand under the first `%w` verb, when it is an error. -/
def wrappedErr : List Char → List Arg → Option GoError
  | [], _ => none
  | '%' :: '%' :: rest, as => wrappedErr rest as
  | '%' :: verb :: rest, a :: as =>
      match verb, a with
      | 'w', .err e => some e
      | _, _ => wrappedErr rest as
  | '%' :: _ :: _, [] => none
  | _ :: rest, as => wrappedErr rest as

/-- `fmt.Errorf(format, args...)`: the message is the formatted text; with a
`%w` operand the result wraps it, otherwise it is a plain `errors.New`.
Every format in `read_net.go` has exactly one `%w`. -/
def Errorf (format : String) (args : List Arg) : GoError :=
  match wrappedErr format.data args with
  | some e => .wrapError (doPrintf format.data args []) e
  | none => .errorString (doPrintf format.data args [])

/-! ## `strings` -/

/-- `unicode.IsSpace`: the white space that `strings.Fields` splits on. -/
def isSpace (c : Char) : Bool :=
  let n := c.toNat
  (9 ≤ n ∧ n ≤ 13) ∨ n = 0x20 ∨ n = 0x85 ∨ n = 0xA0 ∨ n = 0x1680 ∨
    (0x2000 ≤ n ∧ n ≤ 0x200A) ∨ n = 0x2028 ∨ n = 0x2029 ∨ n = 0x202F ∨
    n = 0x205F ∨ n = 0x3000

/-- The loop of `strings.Fields`: `cur` is the field being read, in reverse. -/
def fieldsAux : List Char → List Char → List (List Char)
  | [], cur => if cur = [] then [] else [cur.reverse]
  | c :: cs, cur =>
      if isSpace c then
        if cur = [] then fieldsAux cs [] else cur.reverse :: fieldsAux cs []
      else fieldsAux cs (c :: cur)

/-- `strings.Fields(s)`: the maximal runs of non-space characters. -/
def Fields (s : String) : List String :=
  (fieldsAux s.data []).map String.mk

/-- The loop of `strings.Split` for a one-character separator: `cur` is the
part being read, in reverse. -/
def splitAux (sep : Char) : List Char → List Char → List (List Char)
  | [], cur => [cur.reverse]
  | c :: cs, cur =>
      if c = sep then cur.reverse :: splitAux sep cs [] else splitAux sep cs (c :: cur)

/-- `strings.Split(s, sep)` for a one-character separator, the only use in
`read_net.go` (`":"`): one part more than there are separators. -/
def Split (s : String) (sep : Char) : List String :=
  (splitAux sep s.data []).map String.mk

/-- `strings.Join(elems, sep)`. -/
def Join : List String → String → String
  | [], _ => ""
  | [a], _ => a
  | a :: b :: rest, sep => a ++ sep ++ Join (b :: rest) sep

/-- Whether `sub` occurs in `s` starting at some position. -/
def containsAux (sub : List Char) : List Char → Bool
  | [] => sub.isEmpty
  | c :: cs => sub.isPrefixOf (c :: cs) || containsAux sub cs

/-- `strings.Contains(s, substr)`. -/
def Contains (s substr : String) : Bool :=
  containsAux substr.data s.data

/-! ## `strconv.ParseUint` -/

/-- `lower(c)`: `c | ('x' - 'X')`. -/
def lower (c : Nat) : Nat := c ||| 0x20

/-- The value of one digit character, `none` when it is no letter or digit. -/
def digitVal (c : Nat) : Option Nat :=
  if 48 ≤ c ∧ c ≤ 57 then some (c - 48)
  else if 97 ≤ lower c ∧ lower c ≤ 122 then some (lower c - 97 + 10)
  else none

/-- The digit loop of `ParseUint`.  The result is either `(n, underscores)` or
the value and the error kind the function returns with. -/
def parseLoop (base : Nat) (base0 : Bool) (cutoff maxVal : Nat) :
    List Char → Nat → Bool → Except (Nat × Sentinel) (Nat × Bool)
  | [], n, underscores => .ok (n, underscores)
  | c :: cs, n, underscores =>
      if c.toNat = 95 ∧ base0 = true then parseLoop base base0 cutoff maxVal cs n true
      else
        match digitVal c.toNat with
        | none => .error (0, .ErrSyntax)
        | some d =>
            if d ≥ base then .error (0, .ErrSyntax)
            else if n ≥ cutoff then .error (maxVal, .ErrRange)
            else
              let n' := n * base % 2 ^ 64
              let n1 := (n' + d) % 2 ^ 64
              if n1 < n' ∨ n1 > maxVal then .error (maxVal, .ErrRange)
              else parseLoop base base0 cutoff maxVal cs n1 underscores

/-- The state machine of `underscoreOK` over the number proper: `i` is the
class of the previous character (`'0'` digit, `'_'` underscore, `'!'` other,
`'^'` start). -/
def underscoreLoop (hex : Bool) : List Char → Char → Bool
  | [], i => i != '_'
  | c :: cs, i =>
      let n := c.toNat
      if (48 ≤ n ∧ n ≤ 57) ∨ (hex = true ∧ 97 ≤ lower n ∧ lower n ≤ 102) then
        underscoreLoop hex cs '0'
      else if c = '_' then
        if i != '0' then false else underscoreLoop hex cs '_'
      else if i = '_' then false
      else underscoreLoop hex cs '!'

/-- `underscoreOK(s)`: underscores only between digits or between a base
prefix and a digit. -/
def underscoreOK (s : List Char) : Bool :=
  let s := match s with
    | c :: cs => if c = '-' ∨ c = '+' then cs else c :: cs
    | [] => []
  match s with
  | '0' :: p :: rest =>
      if lower p.toNat = 98 ∨ lower p.toNat = 111 ∨ lower p.toNat = 120 then
        underscoreLoop (lower p.toNat = 120) rest '0'
      else underscoreLoop false s '^'
  | _ => underscoreLoop false s '^'

/-- The base and the digits left after the prefix, for `base == 0`:
`0b`, `0o`, `0x` (with at least one more character) or a leading `0` for
octal; decimal otherwise. -/
def detectBase (s : List Char) : Nat × List Char :=
  match s with
  | '0' :: rest =>
      match rest with
      | p :: _ :: _ =>
          if lower p.toNat = 98 then (2, rest.tail)
          else if lower p.toNat = 111 then (8, rest.tail)
          else if lower p.toNat = 120 then (16, rest.tail)
          else (8, rest)
      | _ => (8, rest)
  | _ => (10, s)

/-- `strconv.ParseUint(s, base, bitSize)`, returning the value together with
the error (`none` is `nil`).  `IntSize` is 64. -/
def ParseUint (s : String) (base : Nat) (bitSize : Nat) : Nat × Option GoError :=
  if s = "" then (0, some (.numError "ParseUint" s (.sentinel .ErrSyntax)))
  else if ¬ (base = 0 ∨ (2 ≤ base ∧ base ≤ 36)) then
    (0, some (.numError "ParseUint" s
      (.errorString [.text ("invalid base " ++ toString base)])))
  else if bitSize > 64 then
    (0, some (.numError "ParseUint" s
      (.errorString [.text ("invalid bit size " ++ toString bitSize)])))
  else
    let base0 := decide (base = 0)
    let (b, digits) := if base = 0 then detectBase s.data else (base, s.data)
    let bits := if bitSize = 0 then 64 else bitSize
    let cutoff := (2 ^ 64 - 1) / b + 1
    let maxVal := 2 ^ bits - 1
    match parseLoop b base0 cutoff maxVal digits 0 false with
    | .error (v, kind) => (v, some (.numError "ParseUint" s (.sentinel kind)))
    | .ok (n, underscores) =>
        if underscores = true ∧ underscoreOK s.data = false then
          (0, some (.numError "ParseUint" s (.sentinel .ErrSyntax)))
        else (n, none)

/-! ## The socket table -/

/-- `NetIPSocketLine`: the fields parsed from a single line in
`/proc/net/{t,u}dp{,6}`.  `Drops` is non-nil for udp, but nil for tcp. -/
structure NetIPSocketLine where
  Sl : Nat
  St : Nat
  TxQueue : Nat
  RxQueue : Nat
  UID : Nat
  Inode : Nat
  Drops : Option Nat
  deriving DecidableEq, Repr

/-- `NetIPSocket`: the contents of the file without the header. -/
abbrev NetIPSocket := List NetIPSocketLine

/-- `readLimit`: the cap given to `io.LimitReader`, 4 GiB. -/
def readLimit : Nat := 4294967296

/-- How a call can end without a value: it returns `nil, err`, or the Go
run time panics on `xs[index]` with `len(xs) = length`. -/
inductive Fault
  | error (e : GoError)
  | panic (index : Nat) (length : Nat)
  deriving DecidableEq, Repr

deriving instance DecidableEq for Except

/-- The slice index expression `xs[i]`. -/
def index (xs : List String) (i : Nat) : Except Fault String :=
  match xs[i]? with
  | some x => .ok x
  | none => .error (.panic i xs.length)

/-- `parseNetIPSocketLine` parses a single line, represented by a list of
fields. -/
def parseNetIPSocketLine (fields : List String) (isUDP : Bool) :
    Except Fault NetIPSocketLine :=
  if fields.length < 10 then
    .error (.error (Errorf "%w: Less than 10 columns found %q"
      [.err (.sentinel .ErrFileParse), .str (Join fields " ")]))
  else
  -- sl
  (index fields 0).bind fun f0 =>
  let s := Split f0 ':'
  if s.length ≠ 2 then
    .error (.error (Errorf "%w: Unable to parse sl field in line %q"
      [.err (.sentinel .ErrFileParse), .str f0]))
  else
  (index s 0).bind fun s0 =>
  match ParseUint s0 0 64 with
  | (sl, some err) =>
    .error (.error (Errorf "%s: Unable to parse sl field in %q: %w"
      [.err (.sentinel .ErrFileParse), .uint sl, .err err]))
  | (sl, none) =>
  -- st
  (index fields 3).bind fun f3 =>
  match ParseUint f3 16 64 with
  | (st, some err) =>
    .error (.error (Errorf "%s: Cannot parse st value in %q: %w"
      [.err (.sentinel .ErrFileParse), .uint st, .err err]))
  | (st, none) =>
  -- tx_queue and rx_queue
  (index fields 4).bind fun f4 =>
  let q := Split f4 ':'
  if q.length ≠ 2 then
    .error (.error (Errorf "%w: Missing colon for tx/rx queues in socket line %q"
      [.err (.sentinel .ErrFileParse), .str f4]))
  else
  (index q 0).bind fun q0 =>
  match ParseUint q0 16 64 with
  | (txQueue, some err) =>
    .error (.error (Errorf "%s: Cannot parse tx_queue value in %q: %w"
      [.err (.sentinel .ErrFileParse), .uint txQueue, .err err]))
  | (txQueue, none) =>
  (index q 1).bind fun q1 =>
  match ParseUint q1 16 64 with
  | (rxQueue, some err) =>
    .error (.error (Errorf "%s: Cannot parse trx_queue value in %q: %w"
      [.err (.sentinel .ErrFileParse), .uint rxQueue, .err err]))
  | (rxQueue, none) =>
  -- uid
  (index fields 7).bind fun f7 =>
  match ParseUint f7 0 64 with
  | (uid, some err) =>
    .error (.error (Errorf "%s: Cannot parse UID value in %q: %w"
      [.err (.sentinel .ErrFileParse), .uint uid, .err err]))
  | (uid, none) =>
  -- inode
  (index fields 9).bind fun f9 =>
  match ParseUint f9 0 64 with
  | (inode, some err) =>
    .error (.error (Errorf "%s: Cannot parse inode value in %q: %w"
      [.err (.sentinel .ErrFileParse), .uint inode, .err err]))
  | (inode, none) =>
  -- drops
  if isUDP then
    (index fields 12).bind fun f12 =>
    match ParseUint f12 0 64 with
    | (drops, some err) =>
      .error (.error (Errorf "%s: Cannot parse drops value in %q: %w"
        [.err (.sentinel .ErrFileParse), .uint drops, .err err]))
    | (drops, none) =>
      .ok { Sl := sl, St := st, TxQueue := txQueue, RxQueue := rxQueue, UID := uid,
            Inode := inode, Drops := some drops }
  else
    .ok { Sl := sl, St := st, TxQueue := txQueue, RxQueue := rxQueue, UID := uid,
          Inode := inode, Drops := none }

/-- What `os.Open` hands to the reading loop once the file is open, seen
through the `bufio.Scanner` on the reader limited to `readLimit` bytes: the
text of the successive successful calls of `Scan()` with default line
splitting, and the value of `s.Err()` after `Scan()` has reported false
(`none` at a clean end of input).  Reading the bytes themselves, cutting them
into lines and the scanner's bound on the length of a line are outside this
program. -/
structure Scanner where
  lines : List String
  err : Option GoError
  deriving DecidableEq, Repr

/-- The loop `for s.Scan() { ... }` of `NewNetIPSocket`; `netIPSocket` is the
table built so far. -/
def scanLoop (isUDP : Bool) : List String → NetIPSocket → Except Fault NetIPSocket
  | [], netIPSocket => .ok netIPSocket
  | text :: rest, netIPSocket =>
      let fields := Fields text
      match parseNetIPSocketLine fields isUDP with
      | .error err => .error err
      | .ok line => scanLoop isUDP rest (netIPSocket ++ [line])

/-- `NewNetIPSocket(file)`.  `osOpen` stands for `os.Open` on the file system
at hand: it fails with an error or yields the lines the scanner will
deliver. -/
def NewNetIPSocket (osOpen : String → Except GoError Scanner) (file : String) :
    Except Fault NetIPSocket :=
  match osOpen file with
  | .error err => .error (.error err)
  | .ok f =>
      let isUDP := Contains file "udp"
      -- s.Scan(): skip first line with headers
      match scanLoop isUDP (f.lines.drop 1) [] with
      | .error err => .error err
      | .ok netIPSocket =>
          match f.err with
          | some err => .error (.error err)
          | none => .ok netIPSocket

/-! ## Vocabulary of the statements -/

/-- What `NewNetIPSocket` makes of the lines after the header once the family
is known: the rows decoded in order under that flag, then the check of
`s.Err()`. -/
def readRows (isUDP : Bool) (rows : List String) (scanErr : Option GoError) :
    Except Fault NetIPSocket :=
  match scanLoop isUDP rows [] with
  | .error err => .error err
  | .ok netIPSocket =>
      match scanErr with
      | some err => .error (.error err)
      | none => .ok netIPSocket

/-- The text of `s` before its first `sep` (all of `s` when there is none). -/
def before (s : String) (sep : Char) : String :=
  String.mk (s.data.takeWhile (· ≠ sep))

/-- The text of `s` after its first `sep` (empty when there is none). -/
def after (s : String) (sep : Char) : String :=
  String.mk (s.data.dropWhile (· ≠ sep)).tail

/-- The number of occurrences of `sep` in `s`. -/
def countSep (s : String) (sep : Char) : Nat :=
  s.data.count sep

/-- The field at index `i`, the empty string when the list is too short. -/
def field (fields : List String) (i : Nat) : String :=
  fields.getD i ""

/-- A valid unsigned 64-bit numeral in the given base (`0` selects the base
from the prefix): `strconv.ParseUint(s, base, 64)` returns a `nil` error. -/
def validUint (s : String) (base : Nat) : Prop :=
  (ParseUint s base 64).2 = none

instance (s : String) (base : Nat) : Decidable (validUint s base) := by
  unfold validUint
  infer_instance

/-- The value of a hexadecimal digit in either case, `none` for any other
character. -/
def hexDigit (c : Char) : Option Nat :=
  if '0' ≤ c ∧ c ≤ '9' then some (c.toNat - '0'.toNat)
  else if 'a' ≤ c ∧ c ≤ 'f' then some (c.toNat - 'a'.toNat + 10)
  else if 'A' ≤ c ∧ c ≤ 'F' then some (c.toNat - 'A'.toNat + 10)
  else none

/-- The number a text of hexadecimal digits denotes, most significant digit
first. -/
def hexValue (s : String) : Nat :=
  s.data.foldl (fun a c => a * 16 + (hexDigit c).getD 0) 0

/-- A hexadecimal numeral that fits 64 bits: at least one digit, nothing but
digits `0-9`, `a-f`, `A-F`, and a value below `2 ^ 64`. -/
def isHex64 (s : String) : Prop :=
  s ≠ "" ∧ (∀ c ∈ s.data, (hexDigit c).isSome = true) ∧ hexValue s < 2 ^ 64

instance (s : String) : Decidable (isHex64 s) := by
  unfold isHex64
  infer_instance

/-- The decimal text of `n`, without sign, prefix or leading zeros. -/
def decimal (n : Nat) : String :=
  String.mk (Nat.toDigits 10 n)

/-- The hexadecimal text of `n`, without prefix or leading zeros, with the
letters in upper case (as the kernel prints them) or in lower case. -/
def hexadecimal (upper : Bool) (n : Nat) : String :=
  String.mk (if upper then (Nat.toDigits 16 n).map Char.toUpper else Nat.toDigits 16 n)

/-- The steps of the line decoder, in the order of `parseNetIPSocketLine`. -/
inductive Step
  | columns
  | slColon
  | sl
  | st
  | queueColon
  | txQueue
  | rxQueue
  | uid
  | inode
  | drops
  deriving DecidableEq, Repr

/-- The steps that every row goes through, in order. -/
def Step.beforeDrops : List Step :=
  [.columns, .slColon, .sl, .st, .queueColon, .txQueue, .rxQueue, .uid, .inode]

/-- All the steps, in order. -/
def Step.order : List Step :=
  Step.beforeDrops ++ [.drops]

/-- The error of a numeric step: none when the number parsed, else the
error built from the format of the step, the value and the error that
`ParseUint` returned. -/
def numFailure (format : String) (r : Nat × Option GoError) : Option GoError :=
  match r with
  | (v, some err) => some (Errorf format [.err (.sentinel .ErrFileParse), .uint v, .err err])
  | (_, none) => none

/-- The requirement of each step taken on its own: `none` when the field
list meets it, else the error that the step reports. -/
def stepFailure (fields : List String) (isUDP : Bool) : Step → Option GoError
  | .columns =>
      if fields.length < 10 then
        some (Errorf "%w: Less than 10 columns found %q"
          [.err (.sentinel .ErrFileParse), .str (Join fields " ")])
      else none
  | .slColon =>
      if countSep (field fields 0) ':' ≠ 1 then
        some (Errorf "%w: Unable to parse sl field in line %q"
          [.err (.sentinel .ErrFileParse), .str (field fields 0)])
      else none
  | .sl =>
      numFailure "%s: Unable to parse sl field in %q: %w"
        (ParseUint (before (field fields 0) ':') 0 64)
  | .st => numFailure "%s: Cannot parse st value in %q: %w" (ParseUint (field fields 3) 16 64)
  | .queueColon =>
      if countSep (field fields 4) ':' ≠ 1 then
        some (Errorf "%w: Missing colon for tx/rx queues in socket line %q"
          [.err (.sentinel .ErrFileParse), .str (field fields 4)])
      else none
  | .txQueue =>
      numFailure "%s: Cannot parse tx_queue value in %q: %w"
        (ParseUint (before (field fields 4) ':') 16 64)
  | .rxQueue =>
      numFailure "%s: Cannot parse trx_queue value in %q: %w"
        (ParseUint (after (field fields 4) ':') 16 64)
  | .uid => numFailure "%s: Cannot parse UID value in %q: %w" (ParseUint (field fields 7) 0 64)
  | .inode =>
      numFailure "%s: Cannot parse inode value in %q: %w" (ParseUint (field fields 9) 0 64)
  | .drops =>
      if isUDP = true then
        numFailure "%s: Cannot parse drops value in %q: %w" (ParseUint (field fields 12) 0 64)
      else none

/-- The value of a character as a digit: `0-9` are 0 to 9, the letters of
either case are 10 to 35; `none` for any other character. -/
def charDigit (c : Char) : Option Nat :=
  if '0' ≤ c ∧ c ≤ '9' then some (c.toNat - '0'.toNat)
  else if 'a' ≤ c ∧ c ≤ 'z' then some (c.toNat - 'a'.toNat + 10)
  else if 'A' ≤ c ∧ c ≤ 'Z' then some (c.toNat - 'A'.toNat + 10)
  else none

/-- The value of a character as a digit of `base`, `none` when it is no
digit of that base. -/
def digitOf (base : Nat) (c : Char) : Option Nat :=
  (charDigit c).bind fun d => if d < base then some d else none

/-- The number that a run of digits denotes in `base`, most significant
digit first, starting from `n`; with `skip` set, underscores are passed
over. -/
def accValue (base : Nat) (skip : Bool) (n : Nat) (cs : List Char) : Nat :=
  cs.foldl (fun a c => if c = '_' ∧ skip = true then a else a * base + (charDigit c).getD 0) n

/-- The number that a numeral with an optional base prefix denotes: the
digits after the prefix, read in the base of the prefix, underscores passed
over. -/
def prefixedValue (s : String) : Nat :=
  accValue (detectBase s.data).1 true 0 (detectBase s.data).2

/-- A numeral with an optional base prefix that fits 64 bits: not empty,
after the prefix nothing but digits of the base of the prefix and
underscores, a value below `2 ^ 64`, and the underscores, if any, placed as
`underscoreOK` demands. -/
def isPrefixed64 (s : String) : Prop :=
  s ≠ "" ∧
  (∀ c ∈ (detectBase s.data).2, c = '_' ∨ (digitOf (detectBase s.data).1 c).isSome = true) ∧
  prefixedValue s < 2 ^ 64 ∧
  ((detectBase s.data).2.any (· = '_') = true → underscoreOK s.data = true)

/-! ## Sample data -/

/-- The first data row of the fixture `fixtures/14804/net/tcp`. -/
def sampleTcpRow : String :=
  "0: 00000000:0016 00000000:0000 0A 00000000:00000000 00:00000000 00000000   101        0 24695 1 0000000000000000 100 0 0 10 0"

/-- A row in the layout of `/proc/net/udp`, with 13 columns. -/
def sampleUdpRow : String :=
  "731: 00000000:0044 00000000:0000 07 00000000:00000000 00:00000000 00000000     0        0 21040 2 0000000000000000 0"

/-- The header line of `/proc/net/tcp`. -/
def sampleHeader : String :=
  "  sl  local_address rem_address   st tx_queue rx_queue tr tm->when retrnsmt   uid  timeout inode"

/-- A file system with one readable table, under whatever name is asked
for. -/
def sampleOpen (lines : List String) : String → Except GoError Scanner :=
  fun _ => .ok { lines := lines, err := none }

/-- A file system on which `os.Open` fails for every path with `ENOENT`
(errno 2), as for a file that does not exist. -/
def sampleMissing : String → Except GoError Scanner :=
  fun file => .error (.pathError "open" file (.errno 2))

/-- A data row with exactly 10 columns, all valid. -/
def sampleShortRow : String :=
  "0: 00000000:0016 00000000:0000 0A 00000000:00000000 00:00000000 00000000 101 0 24695"

/-- Ten fields of which the first holds `slot`, the others being valid. -/
def sampleFields (slot : String) : List String :=
  [slot, "00000000:0016", "00000000:0000", "0A", "00000000:00000000", "00:00000000",
   "00000000", "101", "0", "24695"]

/-! ## Lemmas on `strings.Split` -/

theorem splitAux_length (sep : Char) (l cur : List Char) :
    (splitAux sep l cur).length = l.count sep + 1 := by
  induction l generalizing cur with
  | nil => simp [splitAux]
  | cons c cs ih =>
    by_cases h : c = sep
    · subst h; simp [splitAux, ih]
    · simp [splitAux, h, ih, List.count_cons]

theorem splitAux_no_sep (sep : Char) (l cur : List Char) (h : l.count sep = 0) :
    splitAux sep l cur = [cur.reverse ++ l] := by
  induction l generalizing cur with
  | nil => simp [splitAux]
  | cons c cs ih =>
    have hc : c ≠ sep := by
      intro hc; subst hc; simp at h
    have h2 : cs.count sep = 0 := by
      simpa [List.count_cons, hc] using h
    simp [splitAux, hc, ih _ h2]

theorem splitAux_one_sep (sep : Char) (l cur : List Char) (h : l.count sep = 1) :
    splitAux sep l cur =
      [cur.reverse ++ l.takeWhile (· ≠ sep), (l.dropWhile (· ≠ sep)).tail] := by
  induction l generalizing cur with
  | nil => simp at h
  | cons c cs ih =>
    by_cases hc : c = sep
    · subst hc
      have h2 : cs.count c = 0 := by simpa using h
      simp [splitAux, splitAux_no_sep _ _ _ h2]
    · have h2 : cs.count sep = 1 := by
        simpa [List.count_cons, hc] using h
      simp [splitAux, hc, ih _ h2]

theorem Split_length (s : String) (sep : Char) :
    (Split s sep).length = countSep s sep + 1 := by
  simp [Split, countSep, splitAux_length]

theorem Split_of_count_one (s : String) (sep : Char) (h : countSep s sep = 1) :
    Split s sep = [before s sep, after s sep] := by
  simp [Split, before, after, splitAux_one_sep _ _ _ h]

theorem index_of_lt (xs : List String) (i : Nat) (h : i < xs.length) :
    index xs i = .ok (field xs i) := by
  simp [index, field, List.getD, List.getElem?_eq_getElem h]


theorem index_two_zero (a b : String) : index [a, b] 0 = .ok a := rfl
theorem index_two_one (a b : String) : index [a, b] 1 = .ok b := rfl


theorem parse_ok_iff (fields : List String) (isUDP : Bool) (e : NetIPSocketLine) :
    parseNetIPSocketLine fields isUDP = .ok e ↔
      10 ≤ fields.length ∧
      countSep (field fields 0) ':' = 1 ∧
      ParseUint (before (field fields 0) ':') 0 64 = (e.Sl, none) ∧
      ParseUint (field fields 3) 16 64 = (e.St, none) ∧
      countSep (field fields 4) ':' = 1 ∧
      ParseUint (before (field fields 4) ':') 16 64 = (e.TxQueue, none) ∧
      ParseUint (after (field fields 4) ':') 16 64 = (e.RxQueue, none) ∧
      ParseUint (field fields 7) 0 64 = (e.UID, none) ∧
      ParseUint (field fields 9) 0 64 = (e.Inode, none) ∧
      (if isUDP = true then
        ∃ d, 13 ≤ fields.length ∧ ParseUint (field fields 12) 0 64 = (d, none) ∧
          e.Drops = some d
       else e.Drops = none) := by
  unfold parseNetIPSocketLine
  by_cases h10 : fields.length < 10
  · simp [h10]
  have h10' : 10 ≤ fields.length := by omega
  simp only [index_of_lt fields 0 (by omega), index_of_lt fields 3 (by omega),
    index_of_lt fields 4 (by omega), index_of_lt fields 7 (by omega),
    index_of_lt fields 9 (by omega), Except.bind, if_neg h10]
  by_cases hc0 : countSep (field fields 0) ':' = 1
  swap
  · have : (Split (field fields 0) ':').length ≠ 2 := by rw [Split_length]; omega
    simp [this, hc0]
  by_cases hc4 : countSep (field fields 4) ':' = 1
  swap
  · have : (Split (field fields 4) ':').length ≠ 2 := by rw [Split_length]; omega
    rw [Split_of_count_one _ _ hc0]
    rcases hsl : ParseUint (before (field fields 0) ':') 0 64 with ⟨sl, _ | e0⟩ <;>
    rcases hst : ParseUint (field fields 3) 16 64 with ⟨st, _ | e3⟩ <;>
    simp [this, hc0, hc4, hsl, hst, index_two_zero, Except.bind]
  rw [Split_of_count_one _ _ hc0, Split_of_count_one _ _ hc4]
  rcases hsl : ParseUint (before (field fields 0) ':') 0 64 with ⟨sl, _ | e0⟩ <;>
  rcases hst : ParseUint (field fields 3) 16 64 with ⟨st, _ | e3⟩ <;>
  rcases htx : ParseUint (before (field fields 4) ':') 16 64 with ⟨tx, _ | e4⟩ <;>
  rcases hrx : ParseUint (after (field fields 4) ':') 16 64 with ⟨rx, _ | e5⟩ <;>
  rcases huid : ParseUint (field fields 7) 0 64 with ⟨uid, _ | e7⟩ <;>
  rcases hino : ParseUint (field fields 9) 0 64 with ⟨ino, _ | e9⟩ <;>
  simp [h10, hc0, hc4, hsl, hst, htx, hrx, huid, hino, index_two_zero, index_two_one, Except.bind]
  all_goals
    rcases e with ⟨eSl, eSt, eTx, eRx, eUid, eIno, eDrops⟩
    cases isUDP
    · simp [h10']
      tauto
    · by_cases h13 : 13 ≤ fields.length
      · rw [index_of_lt fields 12 (by omega)]
        rcases hdr : ParseUint (field fields 12) 0 64 with ⟨dr, _ | e12⟩
        · simp [h10', h13, hdr]
          intros
          exact eq_comm
        · simp [h10', h13, hdr]
      · have : index fields 12 = .error (.panic 12 fields.length) := by
          simp [index, List.getElem?_eq_none (show fields.length ≤ 12 by omega)]
        simp [this, h13]

/-! ## Lemmas on `strconv.ParseUint` -/

theorem digitVal_digitChar (d : Nat) (h : d < 16) :
    digitVal (Nat.digitChar d).toNat = some d := by
  interval_cases d <;> decide

theorem digitVal_digitChar_upper (d : Nat) (h : d < 16) :
    digitVal (Nat.digitChar d).toUpper.toNat = some d := by
  interval_cases d <;> decide

theorem digitChar_toNat_ne (d : Nat) (h : d < 16) :
    (Nat.digitChar d).toNat ≠ 95 ∧ (Nat.digitChar d).toUpper.toNat ≠ 95 ∧
    Nat.digitChar d ≠ ':' ∧ (Nat.digitChar d).toUpper ≠ ':' := by
  interval_cases d <;> decide

/-- One step of the digit loop on a character that is a digit of the base. -/
theorem parseLoop_digit (base : Nat) (base0 : Bool) (c : Char) (cs : List Char) (n d : Nat)
    (us : Bool) (hc : c.toNat ≠ 95) (hd : digitVal c.toNat = some d) (hdb : d < base)
    (hn : n * base + d < 2 ^ 64) (hb : 0 < base) :
    parseLoop base base0 ((2 ^ 64 - 1) / base + 1) (2 ^ 64 - 1) (c :: cs) n us =
      parseLoop base base0 ((2 ^ 64 - 1) / base + 1) (2 ^ 64 - 1) cs (n * base + d) us := by
  have h1 : n * base < 2 ^ 64 := by omega
  have h2 : ¬ n ≥ (2 ^ 64 - 1) / base + 1 := by
    have : n ≤ (2 ^ 64 - 1) / base := by
      rw [Nat.le_div_iff_mul_le hb]; omega
    omega
  simp only [parseLoop, hc, false_and, if_false, hd]
  rw [if_neg (by omega), if_neg h2]
  simp only [Nat.mod_eq_of_lt h1, Nat.mod_eq_of_lt hn]
  rw [if_neg (by omega)]

theorem toDigitsCore_eq_digits (b : Nat) (hb : 1 < b) (fuel : Nat) :
    ∀ (n : Nat) (rest : List Char), 0 < n → n < fuel →
      Nat.toDigitsCore b fuel n rest = (Nat.digits b n).reverse.map Nat.digitChar ++ rest := by
  induction fuel with
  | zero => intro n rest _ h; omega
  | succ fuel ih =>
    intro n rest hn hlt
    rw [Nat.toDigitsCore]
    by_cases h0 : n / b = 0
    · have hnb : n < b := by
        rcases Nat.div_eq_zero_iff (by omega : 0 < b) |>.mp h0 with h
        exact h
      simp [h0, Nat.digits_of_lt b n (by omega) hnb, Nat.mod_eq_of_lt hnb]
    · have hpos : 0 < n / b := Nat.pos_of_ne_zero h0
      have hlt2 : n / b < fuel := by
        have : n / b < n := Nat.div_lt_self hn hb
        omega
      simp only [h0, if_false]
      rw [ih (n / b) _ hpos hlt2, Nat.digits_def' hb hn]
      simp

theorem toDigits_eq_digits (b : Nat) (hb : 1 < b) (n : Nat) (hn : 0 < n) :
    Nat.toDigits b n = (Nat.digits b n).reverse.map Nat.digitChar := by
  rw [Nat.toDigits, toDigitsCore_eq_digits b hb (n + 1) n [] hn (by omega)]
  simp

theorem parseLoop_digits (base : Nat) (base0 : Bool) (g : Nat → Char) (hb : 1 < base)
    (hg : ∀ d, d < base → (g d).toNat ≠ 95 ∧ digitVal (g d).toNat = some d) (us : Bool) :
    ∀ (ds : List Nat) (a : Nat), (∀ d ∈ ds, d < base) →
      a * base ^ ds.length + Nat.ofDigits base ds.reverse < 2 ^ 64 →
      parseLoop base base0 ((2 ^ 64 - 1) / base + 1) (2 ^ 64 - 1) (ds.map g) a us =
        .ok (a * base ^ ds.length + Nat.ofDigits base ds.reverse, us) := by
  intro ds
  induction ds with
  | nil => intro a _ _; simp [parseLoop]
  | cons d tl ih =>
    intro a hds hlt
    have hd : d < base := hds d (List.mem_cons_self _ _)
    have hval : a * base ^ (d :: tl).length + Nat.ofDigits base (d :: tl).reverse =
        (a * base + d) * base ^ tl.length + Nat.ofDigits base tl.reverse := by
      simp only [List.length_cons, List.reverse_cons, Nat.ofDigits_append, Nat.ofDigits_singleton,
        List.length_reverse]
      ring
    rw [hval] at hlt ⊢
    have hpow : 0 < base ^ tl.length := Nat.pow_pos (by omega)
    have hstep : a * base + d < 2 ^ 64 := by
      have : a * base + d ≤ (a * base + d) * base ^ tl.length := Nat.le_mul_of_pos_right _ hpow
      omega
    rw [List.map_cons, parseLoop_digit base base0 (g d) _ a d us (hg d hd).1 (hg d hd).2 hd hstep
      (by omega)]
    exact ih (a * base + d) (fun x hx => hds x (List.mem_cons_of_mem _ hx)) hlt

theorem detectBase_of_ne_zero (c : Char) (tl : List Char) (h : c ≠ '0') :
    detectBase (c :: tl) = (10, c :: tl) := by
  unfold detectBase
  split
  · rename_i rest heq
    simp at heq
    exact absurd heq.1 h
  · rfl

theorem digitChar_ne_zero (d : Nat) (h0 : 0 < d) (h : d < 10) : Nat.digitChar d ≠ '0' := by
  interval_cases d <;> decide

theorem digits_reverse_head (b n : Nat) (hb : 1 < b) (hn : 0 < n) :
    ∃ d tl, (Nat.digits b n).reverse = d :: tl ∧ 0 < d ∧ d < b := by
  have hne : Nat.digits b n ≠ [] := Nat.digits_ne_nil_iff_ne_zero.mpr (by omega)
  refine ⟨(Nat.digits b n).getLast hne, (Nat.digits b n).dropLast.reverse, ?_, ?_, ?_⟩
  · conv_lhs => rw [← List.dropLast_append_getLast hne]
    simp
  · exact Nat.pos_of_ne_zero (Nat.getLast_digit_ne_zero b (by omega))
  · exact Nat.digits_lt_base hb (List.getLast_mem hne)

theorem ParseUint_numeral (base : Nat) (g : Nat → Char) (hb : base = 10 ∨ base = 16)
    (hg : ∀ d, d < base → (g d).toNat ≠ 95 ∧ digitVal (g d).toNat = some d)
    (n : Nat) (hn : n < 2 ^ 64) (hpos : 0 < n) :
    ParseUint (String.mk ((Nat.digits base n).reverse.map g)) base 64 = (n, none) := by
  have hb1 : 1 < base := by omega
  obtain ⟨d, tl, hrev, _, _⟩ := digits_reverse_head base n hb1 hpos
  have hne : String.mk ((Nat.digits base n).reverse.map g) ≠ "" := by
    rw [hrev]; simp [String.ext_iff]
  have hloop := parseLoop_digits base false g hb1 hg false (Nat.digits base n).reverse 0
    (fun x hx => Nat.digits_lt_base hb1 (List.mem_reverse.mp hx))
    (by simpa [Nat.ofDigits_digits] using hn)
  simp only [List.reverse_reverse, Nat.ofDigits_digits, Nat.zero_mul, Nat.zero_add] at hloop
  unfold ParseUint
  rw [if_neg hne, if_neg (by omega), if_neg (by omega)]
  have hb0 : ¬ base = 0 := by omega
  simp only [if_neg hb0, ite_self, decide_eq_false hb0, hloop]
  simp

theorem ParseUint_decimal (n : Nat) (hn : n < 2 ^ 64) :
    ParseUint (decimal n) 0 64 = (n, none) := by
  rcases Nat.eq_zero_or_pos n with rfl | hpos
  · have h0 : decimal 0 = "0" := rfl
    rw [h0]
    decide
  have hb1 : 1 < 10 := by omega
  obtain ⟨d, tl, hrev, hd0, hd10⟩ := digits_reverse_head 10 n hb1 hpos
  have hg : ∀ d, d < 10 → (Nat.digitChar d).toNat ≠ 95 ∧
      digitVal (Nat.digitChar d).toNat = some d := fun d hd =>
    ⟨(digitChar_toNat_ne d (by omega)).1, digitVal_digitChar d (by omega)⟩
  have hloop := parseLoop_digits 10 true Nat.digitChar hb1 hg false (Nat.digits 10 n).reverse 0
    (fun x hx => Nat.digits_lt_base hb1 (List.mem_reverse.mp hx))
    (by simpa [Nat.ofDigits_digits] using hn)
  simp only [List.reverse_reverse, Nat.ofDigits_digits, Nat.zero_mul, Nat.zero_add] at hloop
  have hdata : (decimal n).data = Nat.digitChar d :: tl.map Nat.digitChar := by
    simp [decimal, toDigits_eq_digits 10 hb1 n hpos, hrev]
  have hne : decimal n ≠ "" := by
    intro h; rw [h] at hdata; simp at hdata
  have hdet : detectBase (decimal n).data = (10, (decimal n).data) := by
    rw [hdata]; exact detectBase_of_ne_zero _ _ (digitChar_ne_zero d hd0 hd10)
  have hdata2 : (decimal n).data = (Nat.digits 10 n).reverse.map Nat.digitChar := by
    simp [decimal, toDigits_eq_digits 10 hb1 n hpos]
  rw [← hdata2] at hloop
  unfold ParseUint
  rw [if_neg hne, if_neg (by omega), if_neg (by omega)]
  simp only [if_true, hdet, decide_True, ite_self, hloop]
  simp

theorem ParseUint_hexadecimal (upper : Bool) (n : Nat) (hn : n < 2 ^ 64) :
    ParseUint (hexadecimal upper n) 16 64 = (n, none) := by
  rcases Nat.eq_zero_or_pos n with rfl | hpos
  · have h0 : hexadecimal upper 0 = "0" := by cases upper <;> rfl
    rw [h0]
    decide
  have hb1 : 1 < 16 := by omega
  cases upper
  · have := ParseUint_numeral 16 Nat.digitChar (Or.inr rfl)
      (fun d hd => ⟨(digitChar_toNat_ne d hd).1, digitVal_digitChar d hd⟩) n hn hpos
    simpa [hexadecimal, toDigits_eq_digits 16 hb1 n hpos] using this
  · have := ParseUint_numeral 16 (fun d => (Nat.digitChar d).toUpper) (Or.inr rfl)
      (fun d hd => ⟨(digitChar_toNat_ne d hd).2.1, digitVal_digitChar_upper d hd⟩) n hn hpos
    simpa [hexadecimal, toDigits_eq_digits 16 hb1 n hpos, List.map_map, Function.comp_def]
      using this

theorem toDigits_no_colon (b n : Nat) (hb : b = 10 ∨ b = 16) :
    ∀ c ∈ Nat.toDigits b n, c ≠ ':' ∧ c.toUpper ≠ ':' := by
  have hb1 : 1 < b := by omega
  rcases Nat.eq_zero_or_pos n with rfl | hpos
  · intro c hc
    have : Nat.toDigits b 0 = ['0'] := by
      rcases hb with rfl | rfl <;> rfl
    rw [this] at hc
    simp at hc
    subst hc
    decide
  · intro c hc
    rw [toDigits_eq_digits b hb1 n hpos] at hc
    simp only [List.mem_map, List.mem_reverse] at hc
    obtain ⟨d, hd, rfl⟩ := hc
    have hdb : d < b := Nat.digits_lt_base hb1 hd
    exact ⟨(digitChar_toNat_ne d (by omega)).2.2.1, (digitChar_toNat_ne d (by omega)).2.2.2⟩

theorem decimal_no_colon (n : Nat) : ∀ c ∈ (decimal n).data, c ≠ ':' := fun c hc =>
  (toDigits_no_colon 10 n (Or.inl rfl) c hc).1

theorem hexadecimal_no_colon (upper : Bool) (n : Nat) :
    ∀ c ∈ (hexadecimal upper n).data, c ≠ ':' := by
  intro c hc
  cases upper
  · exact (toDigits_no_colon 16 n (Or.inr rfl) c hc).1
  · simp only [hexadecimal, if_true, List.mem_map] at hc
    obtain ⟨c', hc', rfl⟩ := hc
    exact (toDigits_no_colon 16 n (Or.inr rfl) c' hc').2

theorem countSep_join (a b : String) (sep : Char) (ha : ∀ c ∈ a.data, c ≠ sep)
    (hb : ∀ c ∈ b.data, c ≠ sep) :
    countSep (a ++ String.singleton sep ++ b) sep = 1 ∧
      before (a ++ String.singleton sep ++ b) sep = a ∧
      after (a ++ String.singleton sep ++ b) sep = b := by
  have h1 : a.data.count sep = 0 := List.count_eq_zero.mpr (fun h => ha sep h rfl)
  have h2 : b.data.count sep = 0 := List.count_eq_zero.mpr (fun h => hb sep h rfl)
  have ht : (a.data ++ sep :: b.data).takeWhile (· ≠ sep) = a.data := by
    rw [List.takeWhile_append_of_pos (by simpa using ha)]
    simp
  have hd : (a.data ++ sep :: b.data).dropWhile (· ≠ sep) = sep :: b.data := by
    rw [List.dropWhile_append_of_pos (by simpa using ha)]
    simp
  simp only [ne_eq, decide_not] at ht hd
  refine ⟨?_, ?_, ?_⟩
  · simp [countSep, String.singleton, h1, h2]
  · simp [before, String.singleton, ht]
  · simp [after, String.singleton, hd]

/-! ## Hexadecimal numerals -/

theorem lower_ge (n : Nat) (h : 128 ≤ n) : 128 ≤ lower n := by
  obtain ⟨i, hi, hbit⟩ := Nat.ge_two_pow_implies_high_bit_true (show n ≥ 2 ^ 7 from h)
  have hb : (lower n).testBit i = true := by
    simp [lower, Nat.testBit_or, hbit]
  have h1 := Nat.testBit_implies_ge hb
  have h2 : 2 ^ 7 ≤ 2 ^ i := Nat.pow_le_pow_right (by omega) hi
  omega

theorem digitVal_small : ∀ n, n < 128 →
    (digitVal n).bind (fun d => if d < 16 then some d else none) =
      (if 48 ≤ n ∧ n ≤ 57 then some (n - 48)
       else if 97 ≤ n ∧ n ≤ 102 then some (n - 97 + 10)
       else if 65 ≤ n ∧ n ≤ 70 then some (n - 65 + 10) else none) := by
  decide

theorem digitVal_hexDigit (c : Char) :
    (digitVal c.toNat).bind (fun d => if d < 16 then some d else none) = hexDigit c := by
  have hle : ∀ a b : Char, a ≤ b ↔ a.toNat ≤ b.toNat := fun a b => Iff.rfl
  have hx : hexDigit c = (if 48 ≤ c.toNat ∧ c.toNat ≤ 57 then some (c.toNat - 48)
       else if 97 ≤ c.toNat ∧ c.toNat ≤ 102 then some (c.toNat - 97 + 10)
       else if 65 ≤ c.toNat ∧ c.toNat ≤ 70 then some (c.toNat - 65 + 10) else none) := by
    simp only [hexDigit, hle]
    rfl
  rw [hx]
  rcases Nat.lt_or_ge c.toNat 128 with h | h
  · exact digitVal_small _ h
  · have hl := lower_ge _ h
    have : digitVal c.toNat = none := by
      unfold digitVal
      rw [if_neg (by omega), if_neg (by omega)]
    rw [this, if_neg (by omega), if_neg (by omega), if_neg (by omega)]
    rfl

theorem foldl_hex_ge (cs : List Char) : ∀ a : Nat,
    a ≤ cs.foldl (fun a c => a * 16 + (hexDigit c).getD 0) a := by
  induction cs with
  | nil => intro a; simp
  | cons c cs ih =>
    intro a
    have := ih (a * 16 + (hexDigit c).getD 0)
    simp only [List.foldl_cons]
    omega

/-- The digit loop in base 16 without prefix detection succeeds exactly on
texts of hexadecimal digits whose value fits 64 bits, and returns that value. -/
theorem parseLoop_hex_iff (cs : List Char) : ∀ (n v : Nat) (us ut : Bool), n < 2 ^ 64 →
    (parseLoop 16 false ((2 ^ 64 - 1) / 16 + 1) (2 ^ 64 - 1) cs n us = .ok (v, ut) ↔
      (∀ c ∈ cs, (hexDigit c).isSome = true) ∧
      cs.foldl (fun a c => a * 16 + (hexDigit c).getD 0) n < 2 ^ 64 ∧
      v = cs.foldl (fun a c => a * 16 + (hexDigit c).getD 0) n ∧ ut = us) := by
  induction cs with
  | nil =>
    intro n v us ut hn
    simp only [parseLoop, List.foldl_nil, List.not_mem_nil, false_implies, implies_true,
      true_and, Except.ok.injEq, Prod.mk.injEq]
    constructor
    · rintro ⟨rfl, rfl⟩; exact ⟨hn, rfl, rfl⟩
    · rintro ⟨_, rfl, rfl⟩; exact ⟨rfl, rfl⟩
  | cons c cs ih =>
    intro n v us ut hn
    have hdv := digitVal_hexDigit c
    have hmono := foldl_hex_ge cs (n * 16 + (hexDigit c).getD 0)
    simp only [List.foldl_cons, List.mem_cons, forall_eq_or_imp]
    unfold parseLoop
    simp only [Bool.false_eq_true, and_false, if_false]
    rcases hd : digitVal c.toNat with _ | d
    · rw [hd] at hdv
      simp only [Option.bind] at hdv
      simp [← hdv]
    · rw [hd] at hdv
      simp only [Option.bind] at hdv
      by_cases hd16 : d < 16
      · rw [if_pos hd16] at hdv
        simp only [← hdv, Option.isSome_some, Option.getD_some, true_and] at hmono ⊢
        rw [if_neg (by omega)]
        by_cases hcut : n ≥ (2 ^ 64 - 1) / 16 + 1
        · rw [if_pos hcut]
          have : ¬ List.foldl (fun a c => a * 16 + (hexDigit c).getD 0) (n * 16 + d) cs
              < 2 ^ 64 := by omega
          constructor
          · intro h; cases h
          · rintro ⟨_, h, _⟩; exact absurd h this
        · rw [if_neg hcut]
          have h1 : n * 16 < 2 ^ 64 := by omega
          have h2 : n * 16 + d < 2 ^ 64 := by omega
          simp only [Nat.mod_eq_of_lt h1, Nat.mod_eq_of_lt h2]
          rw [if_neg (by omega)]
          exact ih (n * 16 + d) v us ut h2
      · rw [if_neg hd16] at hdv
        have h16 : d ≥ 16 := by omega
        simp [← hdv, h16]

theorem ParseUint_hex_iff (s : String) (v : Nat) :
    ParseUint s 16 64 = (v, none) ↔ isHex64 s ∧ v = hexValue s := by
  unfold ParseUint isHex64 hexValue
  by_cases he : s = ""
  · simp [he]
  rw [if_neg he, if_neg (by omega), if_neg (by omega)]
  simp only [show ¬ (16 = 0) by omega, if_false, decide_False, ite_self]
  rcases hl : parseLoop 16 false ((2 ^ 64 - 1) / 16 + 1) (2 ^ 64 - 1) s.data 0 false
    with ⟨w, kind⟩ | ⟨w, ut⟩
  · have := (parseLoop_hex_iff s.data 0 v false false (by omega)).not.mp (by rw [hl]; simp)
    simp only [Prod.mk.injEq, false_and, reduceCtorEq, and_false, false_iff]
    rintro ⟨⟨_, h1, h2⟩, h3⟩
    exact this ⟨h1, h2, h3, rfl⟩
  · have hw := (parseLoop_hex_iff s.data 0 w false ut (by omega)).mp hl
    obtain ⟨h1, h2, h3, h4⟩ := hw
    subst h4
    simp only [Bool.false_eq_true, false_and, if_false, Prod.mk.injEq, and_true]
    constructor
    · rintro rfl; exact ⟨⟨he, h1, h2⟩, h3⟩
    · rintro ⟨_, rfl⟩; exact h3

/-- A text is a valid base-16 numeral for `ParseUint` with 64 bits exactly
when it is a non-empty run of hexadecimal digits with a value below
`2 ^ 64`. -/
theorem validUint_hex_iff (s : String) : validUint s 16 ↔ isHex64 s := by
  unfold validUint
  constructor
  · intro h
    exact ((ParseUint_hex_iff s (ParseUint s 16 64).1).mp (Prod.ext rfl h)).1
  · intro h
    have := (ParseUint_hex_iff s (hexValue s)).mpr ⟨h, rfl⟩
    rw [this]

/-! ## Lemmas on the reading loop -/

theorem scanLoop_ok (isUDP : Bool) (rows : List String) :
    ∀ (acc : NetIPSocket), (∀ r ∈ rows, ∃ e, parseNetIPSocketLine (Fields r) isUDP = .ok e) →
      ∃ table, scanLoop isUDP rows acc = .ok (acc ++ table) ∧
        List.Forall₂ (fun r e => parseNetIPSocketLine (Fields r) isUDP = .ok e) rows table := by
  induction rows with
  | nil => intro acc _; exact ⟨[], by simp [scanLoop], List.Forall₂.nil⟩
  | cons r rest ih =>
    intro acc h
    obtain ⟨e, he⟩ := h r (List.mem_cons_self _ _)
    obtain ⟨table, htab, hall⟩ := ih (acc ++ [e]) (fun x hx => h x (List.mem_cons_of_mem _ hx))
    refine ⟨e :: table, ?_, List.Forall₂.cons he hall⟩
    simp [scanLoop, he, htab]

theorem scanLoop_error (isUDP : Bool) (pre : List String) (bad : String) (post : List String)
    (fault : Fault) (hbad : parseNetIPSocketLine (Fields bad) isUDP = .error fault) :
    ∀ (acc : NetIPSocket), (∀ r ∈ pre, ∃ e, parseNetIPSocketLine (Fields r) isUDP = .ok e) →
      scanLoop isUDP (pre ++ bad :: post) acc = .error fault := by
  induction pre with
  | nil => intro acc _; simp [scanLoop, hbad]
  | cons r rest ih =>
    intro acc h
    obtain ⟨e, he⟩ := h r (List.mem_cons_self _ _)
    simp [scanLoop, he, ih (acc ++ [e]) (fun x hx => h x (List.mem_cons_of_mem _ hx))]

/-- The error of the column count check. -/
theorem parse_short (fields : List String) (isUDP : Bool) (h : fields.length < 10) :
    parseNetIPSocketLine fields isUDP =
      .error (.error (.wrapError
        [.text "Error Parsing File", .text ": Less than 10 columns found ",
         .quote (Join fields " ")] (.sentinel .ErrFileParse))) := by
  unfold parseNetIPSocketLine
  rw [if_pos h]
  rfl

/-- The error of the colon check on field 0. -/
theorem parse_sl_colon (fields : List String) (isUDP : Bool) (h : 10 ≤ fields.length)
    (hc : countSep (field fields 0) ':' ≠ 1) :
    parseNetIPSocketLine fields isUDP =
      .error (.error (.wrapError
        [.text "Error Parsing File", .text ": Unable to parse sl field in line ",
         .quote (field fields 0)] (.sentinel .ErrFileParse))) := by
  have hlen : (Split (field fields 0) ':').length ≠ 2 := by rw [Split_length]; omega
  unfold parseNetIPSocketLine
  rw [if_neg (by omega), index_of_lt fields 0 (by omega)]
  simp only [Except.bind, hlen, ne_eq, not_false_eq_true, if_true]
  rfl

/-- The error of the colon check on field 4. -/
theorem parse_queue_colon (fields : List String) (isUDP : Bool) (h : 10 ≤ fields.length)
    (hc0 : countSep (field fields 0) ':' = 1)
    (hsl : validUint (before (field fields 0) ':') 0) (hst : validUint (field fields 3) 16)
    (hc : countSep (field fields 4) ':' ≠ 1) :
    parseNetIPSocketLine fields isUDP =
      .error (.error (.wrapError
        [.text "Error Parsing File", .text ": Missing colon for tx/rx queues in socket line ",
         .quote (field fields 4)] (.sentinel .ErrFileParse))) := by
  have hlen : (Split (field fields 4) ':').length ≠ 2 := by rw [Split_length]; omega
  have hlen0 : (Split (field fields 0) ':').length = 2 := by rw [Split_length]; omega
  unfold validUint at hsl hst
  rcases hsl' : ParseUint (before (field fields 0) ':') 0 64 with ⟨sl, esl⟩
  rcases hst' : ParseUint (field fields 3) 16 64 with ⟨st, est⟩
  rw [hsl'] at hsl
  rw [hst'] at hst
  simp only at hsl hst
  subst hsl hst
  unfold parseNetIPSocketLine
  rw [if_neg (by omega), index_of_lt fields 0 (by omega), index_of_lt fields 3 (by omega),
    index_of_lt fields 4 (by omega)]
  simp only [Except.bind, hlen, hlen0, ne_eq, not_false_eq_true, if_true, not_true_eq_false,
    if_false]
  rw [Split_of_count_one _ _ hc0]
  simp only [index_two_zero, hsl', hst']
  rfl

/-- With `isUDP` set and fewer than 13 fields, a row whose other fields are
valid ends in an index out of range on `fields[12]`. -/
theorem parse_udp_short (fields : List String) (h10 : 10 ≤ fields.length)
    (h13 : fields.length < 13)
    (hc0 : countSep (field fields 0) ':' = 1)
    (hsl : validUint (before (field fields 0) ':') 0) (hst : validUint (field fields 3) 16)
    (hc4 : countSep (field fields 4) ':' = 1)
    (htx : validUint (before (field fields 4) ':') 16)
    (hrx : validUint (after (field fields 4) ':') 16)
    (huid : validUint (field fields 7) 0) (hino : validUint (field fields 9) 0) :
    parseNetIPSocketLine fields true = .error (.panic 12 fields.length) := by
  unfold validUint at hsl hst htx hrx huid hino
  rcases hsl' : ParseUint (before (field fields 0) ':') 0 64 with ⟨sl, esl⟩
  rcases hst' : ParseUint (field fields 3) 16 64 with ⟨st, est⟩
  rcases htx' : ParseUint (before (field fields 4) ':') 16 64 with ⟨tx, etx⟩
  rcases hrx' : ParseUint (after (field fields 4) ':') 16 64 with ⟨rx, erx⟩
  rcases huid' : ParseUint (field fields 7) 0 64 with ⟨uid, euid⟩
  rcases hino' : ParseUint (field fields 9) 0 64 with ⟨ino, eino⟩
  rw [hsl'] at hsl
  rw [hst'] at hst
  rw [htx'] at htx
  rw [hrx'] at hrx
  rw [huid'] at huid
  rw [hino'] at hino
  simp only at hsl hst htx hrx huid hino
  subst hsl hst htx hrx huid hino
  have h12 : index fields 12 = .error (.panic 12 fields.length) := by
    simp [index, List.getElem?_eq_none (show fields.length ≤ 12 by omega)]
  unfold parseNetIPSocketLine
  rw [if_neg (by omega), index_of_lt fields 0 (by omega), index_of_lt fields 3 (by omega),
    index_of_lt fields 4 (by omega), index_of_lt fields 7 (by omega),
    index_of_lt fields 9 (by omega), h12]
  simp only [Except.bind]
  rw [Split_of_count_one _ _ hc0, Split_of_count_one _ _ hc4]
  simp [index_two_zero, index_two_one, hsl', hst', htx', hrx', huid', hino']

/-- The first row that does not decode, with the rows before it. -/
theorem first_failing_row (isUDP : Bool) (rows : List String)
    (h : ∃ r ∈ rows, ∀ e, parseNetIPSocketLine (Fields r) isUDP ≠ .ok e) :
    ∃ pre bad post, rows = pre ++ bad :: post ∧
      (∀ r ∈ pre, ∃ e, parseNetIPSocketLine (Fields r) isUDP = .ok e) ∧
      ∀ e, parseNetIPSocketLine (Fields bad) isUDP ≠ .ok e := by
  induction rows with
  | nil => obtain ⟨r, hr, _⟩ := h; cases hr
  | cons r rest ih =>
    rcases hres : parseNetIPSocketLine (Fields r) isUDP with fault | e
    · exact ⟨[], r, rest, rfl, by simp, by simp [hres]⟩
    · obtain ⟨x, hx, hbad⟩ := h
      have hx' : x ∈ rest := by
        rcases List.mem_cons.mp hx with rfl | hx'
        · exact absurd hres (hbad e)
        · exact hx'
      obtain ⟨pre, bad, post, hrows, hpre, hb⟩ := ih ⟨x, hx', hbad⟩
      refine ⟨r :: pre, bad, post, by simp [hrows], ?_, hb⟩
      intro y hy
      rcases List.mem_cons.mp hy with rfl | hy'
      · exact ⟨e, hres⟩
      · exact hpre y hy'

/-- With `isUDP = false` no index is out of range. -/
theorem parse_tcp_no_panic (fields : List String) (i n : Nat) :
    parseNetIPSocketLine fields false ≠ .error (.panic i n) := by
  unfold parseNetIPSocketLine
  by_cases h10 : fields.length < 10
  · simp [h10]
  simp only [index_of_lt fields 0 (by omega), index_of_lt fields 3 (by omega),
    index_of_lt fields 4 (by omega), index_of_lt fields 7 (by omega),
    index_of_lt fields 9 (by omega), Except.bind, if_neg h10]
  by_cases hc0 : countSep (field fields 0) ':' = 1
  swap
  · have : (Split (field fields 0) ':').length ≠ 2 := by rw [Split_length]; omega
    simp [this]
  by_cases hc4 : countSep (field fields 4) ':' = 1
  swap
  · have : (Split (field fields 4) ':').length ≠ 2 := by rw [Split_length]; omega
    rw [Split_of_count_one _ _ hc0]
    rcases hsl : ParseUint (before (field fields 0) ':') 0 64 with ⟨sl, _ | e0⟩ <;>
    rcases hst : ParseUint (field fields 3) 16 64 with ⟨st, _ | e3⟩ <;>
    simp [this, hsl, hst, index_two_zero, Except.bind]
  rw [Split_of_count_one _ _ hc0, Split_of_count_one _ _ hc4]
  rcases hsl : ParseUint (before (field fields 0) ':') 0 64 with ⟨sl, _ | e0⟩ <;>
  rcases hst : ParseUint (field fields 3) 16 64 with ⟨st, _ | e3⟩ <;>
  rcases htx : ParseUint (before (field fields 4) ':') 16 64 with ⟨tx, _ | e4⟩ <;>
  rcases hrx : ParseUint (after (field fields 4) ':') 16 64 with ⟨rx, _ | e5⟩ <;>
  rcases huid : ParseUint (field fields 7) 0 64 with ⟨uid, _ | e7⟩ <;>
  rcases hino : ParseUint (field fields 9) 0 64 with ⟨ino, _ | e9⟩ <;>
  simp [hsl, hst, htx, hrx, huid, hino, index_two_zero, index_two_one, Except.bind]


/-- The text of a message made of two literal pieces and one quoted string. -/
theorem render_text_text_quote (a b x : String) (quote : String → String)
    (quoteRune : Nat → String) (errnoText : Nat → String) :
    Msg.render quote quoteRune errnoText [.text a, .text b, .quote x] = a ++ b ++ quote x := by
  simp [Msg.render, String.append_assoc]

theorem NewNetIPSocket_eq_readRows (osOpen : String → Except GoError Scanner) (file : String)
    (f : Scanner) (hopen : osOpen file = .ok f) :
    NewNetIPSocket osOpen file = readRows (Contains file "udp") (f.lines.drop 1) f.err := by
  unfold NewNetIPSocket readRows
  simp only [hopen]

theorem containsAux_iff (sub l : List Char) :
    containsAux sub l = true ↔ ∃ pre post, l = pre ++ sub ++ post := by
  induction l with
  | nil =>
    simp only [containsAux, List.isEmpty_iff]
    constructor
    · rintro rfl; exact ⟨[], [], rfl⟩
    · rintro ⟨pre, post, h⟩
      have := congrArg List.length h
      simp at this
      exact List.length_eq_zero.mp (by omega)
  | cons c cs ih =>
    simp only [containsAux, Bool.or_eq_true, ih, List.isPrefixOf_iff_prefix]
    constructor
    · rintro (⟨t, ht⟩ | ⟨pre, post, h⟩)
      · exact ⟨[], t, by simp [ht]⟩
      · exact ⟨c :: pre, post, by simp [h]⟩
    · rintro ⟨pre, post, h⟩
      cases pre with
      | nil => exact Or.inl ⟨post, by simpa using h.symm⟩
      | cons p pre =>
        simp only [List.cons_append, List.cons.injEq] at h
        exact Or.inr ⟨pre, post, h.2⟩

theorem field_eq_of_getElem? (xs ys : List String) (i : Nat) (h : xs[i]? = ys[i]?) :
    field xs i = field ys i := by
  simp [field, List.getD, h]

/-- The first nine steps: the decoder returns the error of the first of
them that fails. -/
theorem parse_first_of_nine (fields : List String) (isUDP : Bool) (err : GoError)
    (h : Step.beforeDrops.findSome? (stepFailure fields isUDP) = some err) :
    parseNetIPSocketLine fields isUDP = .error (.error err) := by
  unfold parseNetIPSocketLine
  simp only [Step.beforeDrops, List.findSome?_cons, List.findSome?_nil, stepFailure] at h
  by_cases h10 : fields.length < 10
  · simp only [h10, if_true] at h ⊢
    rw [← Option.some.inj h]
  have h10' : 10 ≤ fields.length := by omega
  simp only [index_of_lt fields 0 (by omega), index_of_lt fields 3 (by omega),
    index_of_lt fields 4 (by omega), index_of_lt fields 7 (by omega),
    index_of_lt fields 9 (by omega), Except.bind, if_neg h10]
  simp only [if_neg h10] at h
  by_cases hc0 : countSep (field fields 0) ':' = 1
  swap
  · have : (Split (field fields 0) ':').length ≠ 2 := by rw [Split_length]; omega
    simp only [hc0, ne_eq, not_false_eq_true, if_true] at h
    simp only [this, ne_eq, not_false_eq_true, if_true]
    rw [← Option.some.inj h]
  simp only [hc0, ne_eq, not_true_eq_false, if_false] at h
  rw [Split_of_count_one _ _ hc0]
  simp only [List.length_cons, List.length_nil, ne_eq, not_true_eq_false, if_false,
    index_two_zero, Nat.reduceAdd]
  rcases hsl : ParseUint (before (field fields 0) ':') 0 64 with ⟨sl, _ | e0⟩
  swap
  · simp only [hsl, numFailure] at h
    simp only []
    rw [← Option.some.inj h]
  simp only [hsl, numFailure] at h
  simp only []
  rcases hst : ParseUint (field fields 3) 16 64 with ⟨st, _ | e3⟩
  swap
  · simp only [hst, numFailure] at h
    simp only []
    rw [← Option.some.inj h]
  simp only [hst, numFailure] at h
  simp only []
  by_cases hc4 : countSep (field fields 4) ':' = 1
  swap
  · have : (Split (field fields 4) ':').length ≠ 2 := by rw [Split_length]; omega
    simp only [hc4, not_false_eq_true, if_true] at h
    simp only [this, ne_eq, not_false_eq_true, if_true]
    rw [← Option.some.inj h]
  simp only [hc4, not_true_eq_false, if_false] at h
  rw [Split_of_count_one _ _ hc4]
  simp only [List.length_cons, List.length_nil, not_true_eq_false, if_false,
    index_two_zero, index_two_one, Nat.reduceAdd]
  rcases htx : ParseUint (before (field fields 4) ':') 16 64 with ⟨tx, _ | e4⟩
  swap
  · simp only [htx, numFailure] at h
    simp only []
    rw [← Option.some.inj h]
  simp only [htx, numFailure] at h
  simp only []
  rcases hrx : ParseUint (after (field fields 4) ':') 16 64 with ⟨rx, _ | e5⟩
  swap
  · simp only [hrx, numFailure] at h
    simp only []
    rw [← Option.some.inj h]
  simp only [hrx, numFailure] at h
  simp only []
  rcases huid : ParseUint (field fields 7) 0 64 with ⟨uid, _ | e7⟩
  swap
  · simp only [huid, numFailure] at h
    simp only []
    rw [← Option.some.inj h]
  simp only [huid, numFailure] at h
  simp only []
  rcases hino : ParseUint (field fields 9) 0 64 with ⟨ino, _ | e9⟩
  swap
  · simp only [hino, numFailure] at h
    simp only []
    rw [← Option.some.inj h]
  simp only [hino, numFailure] at h
  cases h

/-- The last step: when the first nine pass and field 12 is there, the
decoder returns the error of the drops step if it fails. -/
theorem parse_drops_failure (fields : List String) (isUDP : Bool) (err : GoError)
    (h : Step.beforeDrops.findSome? (stepFailure fields isUDP) = none)
    (h13 : 13 ≤ fields.length) (hd : stepFailure fields isUDP .drops = some err) :
    parseNetIPSocketLine fields isUDP = .error (.error err) := by
  unfold parseNetIPSocketLine
  simp only [Step.beforeDrops, List.findSome?_cons, List.findSome?_nil, stepFailure] at h hd
  have h10 : ¬ fields.length < 10 := by omega
  simp only [index_of_lt fields 0 (by omega), index_of_lt fields 3 (by omega),
    index_of_lt fields 4 (by omega), index_of_lt fields 7 (by omega),
    index_of_lt fields 9 (by omega), index_of_lt fields 12 (by omega), Except.bind, if_neg h10]
  simp only [if_neg h10] at h
  by_cases hc0 : countSep (field fields 0) ':' = 1
  swap
  · simp [hc0] at h
  simp only [hc0, ne_eq, not_true_eq_false, if_false] at h
  rw [Split_of_count_one _ _ hc0]
  simp only [List.length_cons, List.length_nil, ne_eq, not_true_eq_false, if_false,
    index_two_zero, Nat.reduceAdd]
  rcases hsl : ParseUint (before (field fields 0) ':') 0 64 with ⟨sl, _ | e0⟩
  swap
  · simp [hsl, numFailure] at h
  simp only [hsl, numFailure] at h
  simp only []
  rcases hst : ParseUint (field fields 3) 16 64 with ⟨st, _ | e3⟩
  swap
  · simp [hst, numFailure] at h
  simp only [hst, numFailure] at h
  simp only []
  by_cases hc4 : countSep (field fields 4) ':' = 1
  swap
  · simp [hc4] at h
  simp only [hc4, not_true_eq_false, if_false] at h
  rw [Split_of_count_one _ _ hc4]
  simp only [List.length_cons, List.length_nil, not_true_eq_false, if_false,
    index_two_zero, index_two_one, Nat.reduceAdd]
  rcases htx : ParseUint (before (field fields 4) ':') 16 64 with ⟨tx, _ | e4⟩
  swap
  · simp [htx, numFailure] at h
  simp only [htx, numFailure] at h
  simp only []
  rcases hrx : ParseUint (after (field fields 4) ':') 16 64 with ⟨rx, _ | e5⟩
  swap
  · simp [hrx, numFailure] at h
  simp only [hrx, numFailure] at h
  simp only []
  rcases huid : ParseUint (field fields 7) 0 64 with ⟨uid, _ | e7⟩
  swap
  · simp [huid, numFailure] at h
  simp only [huid, numFailure] at h
  simp only []
  rcases hino : ParseUint (field fields 9) 0 64 with ⟨ino, _ | e9⟩
  swap
  · simp [hino, numFailure] at h
  simp only []
  cases isUDP
  · simp at hd
  simp only [if_true] at hd ⊢
  rcases hdr : ParseUint (field fields 12) 0 64 with ⟨dr, _ | e12⟩
  · simp [hdr, numFailure] at hd
  · simp only [hdr, numFailure] at hd
    simp only []
    rw [← Option.some.inj hd]

/-! ## Numerals with a base prefix -/

theorem digitVal_small_all : ∀ n, n < 128 →
    digitVal n =
      (if 48 ≤ n ∧ n ≤ 57 then some (n - 48)
       else if 97 ≤ n ∧ n ≤ 122 then some (n - 97 + 10)
       else if 65 ≤ n ∧ n ≤ 90 then some (n - 65 + 10) else none) := by
  decide

theorem digitVal_charDigit (c : Char) : digitVal c.toNat = charDigit c := by
  have hle : ∀ a b : Char, a ≤ b ↔ a.toNat ≤ b.toNat := fun a b => Iff.rfl
  have hx : charDigit c = (if 48 ≤ c.toNat ∧ c.toNat ≤ 57 then some (c.toNat - 48)
       else if 97 ≤ c.toNat ∧ c.toNat ≤ 122 then some (c.toNat - 97 + 10)
       else if 65 ≤ c.toNat ∧ c.toNat ≤ 90 then some (c.toNat - 65 + 10) else none) := by
    simp only [charDigit, hle]
    rfl
  rw [hx]
  rcases Nat.lt_or_ge c.toNat 128 with h | h
  · exact digitVal_small_all _ h
  · have hl := lower_ge _ h
    unfold digitVal
    rw [if_neg (by omega), if_neg (by omega), if_neg (by omega), if_neg (by omega),
      if_neg (by omega)]

theorem toNat_eq_underscore (c : Char) : c.toNat = 95 ↔ c = '_' := by
  constructor
  · intro h
    have := Char.ofNat_toNat c
    rw [h] at this
    exact this.symm
  · rintro rfl; rfl

theorem accValue_ge (base : Nat) (skip : Bool) (hb : 1 ≤ base) (cs : List Char) :
    ∀ n : Nat, n ≤ accValue base skip n cs := by
  induction cs with
  | nil => intro n; simp [accValue]
  | cons c cs ih =>
    intro n
    simp only [accValue, List.foldl_cons]
    split
    · exact ih n
    · have := ih (n * base + (charDigit c).getD 0)
      simp only [accValue] at this
      have h2 : n ≤ n * base := Nat.le_mul_of_pos_right n hb
      omega

/-- The digit loop of `ParseUint` succeeds exactly on runs of digits of the
base (and underscores, under prefix detection) whose value fits 64 bits; it
returns that value and whether an underscore was seen. -/
theorem parseLoop_iff (base : Nat) (hb : 2 ≤ base) (hb36 : base ≤ 36) (base0 : Bool)
    (cs : List Char) : ∀ (n v : Nat) (us ut : Bool), n < 2 ^ 64 →
    (parseLoop base base0 ((2 ^ 64 - 1) / base + 1) (2 ^ 64 - 1) cs n us = .ok (v, ut) ↔
      (∀ c ∈ cs, (c = '_' ∧ base0 = true) ∨ (digitOf base c).isSome = true) ∧
      accValue base base0 n cs < 2 ^ 64 ∧ v = accValue base base0 n cs ∧
      ut = (us || (base0 && cs.any (· = '_')))) := by
  induction cs with
  | nil =>
    intro n v us ut hn
    simp only [parseLoop, accValue, List.foldl_nil, List.not_mem_nil, false_implies,
      implies_true, true_and, Except.ok.injEq, Prod.mk.injEq, List.any_nil, Bool.and_false,
      Bool.or_false]
    constructor
    · rintro ⟨rfl, rfl⟩; exact ⟨hn, rfl, rfl⟩
    · rintro ⟨_, rfl, rfl⟩; exact ⟨rfl, rfl⟩
  | cons c cs ih =>
    intro n v us ut hn
    simp only [List.mem_cons, forall_eq_or_imp, List.any_cons]
    unfold parseLoop
    by_cases hus : c = '_' ∧ base0 = true
    · have h95 : c.toNat = 95 ∧ base0 = true := ⟨(toNat_eq_underscore c).mpr hus.1, hus.2⟩
      rw [if_pos h95]
      have hacc : accValue base base0 n (c :: cs) = accValue base base0 n cs := by
        simp only [accValue, List.foldl_cons, if_pos hus]
      rw [hacc, ih n v true ut hn]
      simp [hus.1, hus.2]
    · have h95 : ¬ (c.toNat = 95 ∧ base0 = true) := by
        rw [toNat_eq_underscore]; exact hus
      rw [if_neg h95, digitVal_charDigit]
      have hacc : accValue base base0 n (c :: cs) =
          accValue base base0 (n * base + (charDigit c).getD 0) cs := by
        simp only [accValue, List.foldl_cons, if_neg hus]
      rw [hacc]
      have hmono := accValue_ge base base0 (by omega) cs (n * base + (charDigit c).getD 0)
      have hany : (base0 && (decide (c = '_') || cs.any (· = '_'))) =
          (base0 && cs.any (· = '_')) := by
        cases base0
        · rfl
        · have hc : ¬ c = '_' := fun hc => hus ⟨hc, rfl⟩
          simp [hc]
      rcases hd : charDigit c with _ | d
      · simp [digitOf, hd, hus]
      · simp only [Option.getD_some, hd] at hmono ⊢
        by_cases hdb : d < base
        swap
        · rw [if_pos (by omega)]
          simp [digitOf, hd, hdb, hus]
        rw [if_neg (by omega)]
        have hdig : (digitOf base c).isSome = true := by simp [digitOf, hd, hdb]
        by_cases hcut : n ≥ (2 ^ 64 - 1) / base + 1
        · rw [if_pos hcut]
          have hnb : 2 ^ 64 ≤ n * base := by
            have : (2 ^ 64 - 1) / base < n := by omega
            have := (Nat.div_lt_iff_lt_mul (by omega : 0 < base)).mp this
            omega
          constructor
          · intro h; cases h
          · rintro ⟨_, h, _⟩; omega
        · rw [if_neg hcut]
          have hnb : n * base < 2 ^ 64 := by
            have : ¬ (2 ^ 64 - 1) / base < n := by omega
            have := mt (Nat.div_lt_iff_lt_mul (by omega : 0 < base)).mpr this
            omega
          generalize hm : n * base = m at hnb hmono ⊢
          by_cases hov : m + d < 2 ^ 64
          · simp only [Nat.mod_eq_of_lt hnb, Nat.mod_eq_of_lt hov]
            rw [if_neg (by omega), ih (m + d) v us ut hov]
            simp only [hdig, hus, false_or, true_and, hany]
          · rw [if_pos (by omega)]
            constructor
            · intro h; cases h
            · rintro ⟨_, h, _⟩; omega

theorem detectBase_base (l : List Char) :
    2 ≤ (detectBase l).1 ∧ (detectBase l).1 ≤ 36 := by
  unfold detectBase
  split
  · split
    · split
      · simp
      · split
        · simp
        · split <;> simp
    · simp
  · simp

theorem ParseUint_base0_iff (s : String) (v : Nat) :
    ParseUint s 0 64 = (v, none) ↔ isPrefixed64 s ∧ v = prefixedValue s := by
  unfold ParseUint isPrefixed64 prefixedValue
  by_cases he : s = ""
  · simp [he]
  rw [if_neg he, if_neg (by omega), if_neg (by omega)]
  simp only [if_true, decide_True, ite_self]
  obtain ⟨hb2, hb36⟩ := detectBase_base s.data
  rcases hdet : detectBase s.data with ⟨b, digits⟩
  rw [hdet] at hb2 hb36
  simp only at hb2 hb36 ⊢
  rcases hl : parseLoop b true ((2 ^ 64 - 1) / b + 1) (2 ^ 64 - 1) digits 0 false
    with ⟨w, kind⟩ | ⟨w, ut⟩
  · have := (parseLoop_iff b hb2 hb36 true digits 0 v false
      (false || (true && digits.any (· = '_'))) (by omega)).not.mp (by rw [hl]; simp)
    simp only [Prod.mk.injEq, reduceCtorEq, and_false, false_iff]
    rintro ⟨⟨_, h1, h2, _⟩, h3⟩
    exact this ⟨fun c hc => (h1 c hc).imp (fun h => ⟨h, rfl⟩) id, h2, h3, rfl⟩
  · obtain ⟨h1, h2, h3, h4⟩ := (parseLoop_iff b hb2 hb36 true digits 0 w false ut
      (by omega)).mp hl
    have h1' : ∀ c ∈ digits, c = '_' ∨ (digitOf b c).isSome = true :=
      fun c hc => (h1 c hc).imp (fun h => h.1) id
    simp only [Bool.false_or, Bool.true_and] at h4
    simp only []
    by_cases hu : ut = true ∧ underscoreOK s.data = false
    · rw [if_pos hu]
      simp only [Prod.mk.injEq, reduceCtorEq, and_false, false_iff]
      rintro ⟨⟨_, _, _, h5⟩, _⟩
      have := h5 (by rw [← h4]; exact hu.1)
      rw [hu.2] at this
      cases this
    · rw [if_neg hu]
      simp only [Prod.mk.injEq, and_true]
      constructor
      · rintro rfl
        refine ⟨⟨he, h1', h2, ?_⟩, h3⟩
        intro hany
        rw [← h4] at hany
        rcases hok : underscoreOK s.data with _ | _
        · exact absurd ⟨hany, hok⟩ hu
        · rfl
      · rintro ⟨_, rfl⟩; exact h3

/-- A text is a valid numeral for `ParseUint` with base 0 and 64 bits
exactly when it is a prefixed numeral that fits 64 bits. -/
theorem validUint_base0_iff (s : String) : validUint s 0 ↔ isPrefixed64 s := by
  unfold validUint
  constructor
  · intro h
    exact ((ParseUint_base0_iff s (ParseUint s 0 64).1).mp (Prod.ext rfl h)).1
  · intro h
    have := (ParseUint_base0_iff s (prefixedValue s)).mpr ⟨h, rfl⟩
    rw [this]

theorem detectBase_zero_digit (d : Char) (rest : List Char) (h0 : '0' ≤ d) (h9 : d ≤ '9') :
    detectBase ('0' :: d :: rest) = (8, d :: rest) := by
  have hle : ∀ a b : Char, a ≤ b ↔ a.toNat ≤ b.toNat := fun a b => Iff.rfl
  rw [hle] at h0 h9
  have h0' : 48 ≤ d.toNat := h0
  have h9' : d.toNat ≤ 57 := h9
  have hlow : ∀ n, 48 ≤ n → n ≤ 57 → lower n ≠ 98 ∧ lower n ≠ 111 ∧ lower n ≠ 120 := by
    intro n h1 h2
    interval_cases n <;> decide
  obtain ⟨hb, ho, hx⟩ := hlow d.toNat h0' h9'
  cases rest with
  | nil => rfl
  | cons r rest =>
    simp only [detectBase, hb, ho, hx, if_false]

/-- The values of a successful decode, field by field. -/
theorem parse_ok_values (fields : List String) (isUDP : Bool) (e : NetIPSocketLine)
    (h : parseNetIPSocketLine fields isUDP = .ok e) :
    (e.Sl = prefixedValue (before (field fields 0) ':') ∧ e.Sl < 2 ^ 64) ∧
    (e.St = hexValue (field fields 3) ∧ e.St < 2 ^ 64) ∧
    (e.TxQueue = hexValue (before (field fields 4) ':') ∧ e.TxQueue < 2 ^ 64) ∧
    (e.RxQueue = hexValue (after (field fields 4) ':') ∧ e.RxQueue < 2 ^ 64) ∧
    (e.UID = prefixedValue (field fields 7) ∧ e.UID < 2 ^ 64) ∧
    (e.Inode = prefixedValue (field fields 9) ∧ e.Inode < 2 ^ 64) ∧
    (∀ d, e.Drops = some d → d = prefixedValue (field fields 12) ∧ d < 2 ^ 64) := by
  obtain ⟨_, _, hsl, hst, _, htx, hrx, huid, hino, hdr⟩ := (parse_ok_iff fields isUDP e).mp h
  have p0 : ∀ s v, ParseUint s 0 64 = (v, none) → v = prefixedValue s ∧ v < 2 ^ 64 := by
    intro s v hv
    obtain ⟨⟨_, _, hlt, _⟩, hval⟩ := (ParseUint_base0_iff s v).mp hv
    exact ⟨hval, by rw [hval]; exact hlt⟩
  have p16 : ∀ s v, ParseUint s 16 64 = (v, none) → v = hexValue s ∧ v < 2 ^ 64 := by
    intro s v hv
    obtain ⟨⟨_, _, hlt⟩, hval⟩ := (ParseUint_hex_iff s v).mp hv
    exact ⟨hval, by rw [hval]; exact hlt⟩
  refine ⟨p0 _ _ hsl, p16 _ _ hst, p16 _ _ htx, p16 _ _ hrx, p0 _ _ huid, p0 _ _ hino, ?_⟩
  intro d hd
  cases isUDP
  · simp only [Bool.false_eq_true, if_false] at hdr
    rw [hdr] at hd
    cases hd
  · simp only [if_true] at hdr
    obtain ⟨d', _, hp, hdrops⟩ := hdr
    rw [hdrops] at hd
    cases hd
    exact p0 _ _ hp

/-! ## Lemmas on `strings.Join` -/

theorem Join_cons_append (x y sep : String) (rest : List String) :
    Join ((x ++ y) :: rest) sep = x ++ Join (y :: rest) sep := by
  cases rest with
  | nil => rfl
  | cons c r => simp [Join, String.append_assoc]

theorem intercalate_go_eq_Join (sep : String) (rest : List String) :
    ∀ acc : String, String.intercalate.go acc sep rest = Join (acc :: rest) sep := by
  induction rest with
  | nil => intro acc; rfl
  | cons b rest ih =>
    intro acc
    rw [String.intercalate.go, ih, String.append_assoc, Join_cons_append, Join_cons_append]
    simp [Join, String.append_assoc]

/-- `strings.Join` as modelled is the joining of the library: the elements
in order with the separator between each two neighbours. -/
theorem Join_eq_intercalate (elems : List String) (sep : String) :
    Join elems sep = sep.intercalate elems := by
  cases elems with
  | nil => rfl
  | cons a rest => rw [String.intercalate, intercalate_go_eq_Join]

/-- The characters of a joined text: those of the elements in order, with
those of the separator between each two neighbours. -/
theorem Join_data (elems : List String) (sep : String) :
    (Join elems sep).data = List.intercalate sep.data (elems.map String.data) := by
  induction elems with
  | nil => rfl
  | cons a rest ih =>
    cases rest with
    | nil => simp [Join, List.intercalate]
    | cons b r =>
      rw [Join, String.data_append, String.data_append, ih]
      simp [List.intercalate, List.intersperse]

/-- The abort on the first error: (1) if the rows before some row all decode
and that row returns an error, `NewNetIPSocket` returns that very error and no
table, whatever follows the row and however the scan would have ended; (2)
when some data row does not decode and no row ends in a panic (none does for
a TCP path) there is such a first failing row, so the call returns its error;
(3) a second line with fewer than 10 fields makes the call fail with an error
that wraps `ErrFileParse`. -/
theorem NewNetIPSocket_first_error (osOpen : String → Except GoError Scanner)
    (file header : String) (rows : List String) (scanErr : Option GoError)
    (hopen : osOpen file = .ok { lines := header :: rows, err := scanErr }) :
    (∀ pre bad post err, rows = pre ++ bad :: post →
      (∀ r ∈ pre, ∃ e, parseNetIPSocketLine (Fields r) (Contains file "udp") = .ok e) →
      parseNetIPSocketLine (Fields bad) (Contains file "udp") = .error (.error err) →
      NewNetIPSocket osOpen file = .error (.error err)) ∧
    ((Contains file "udp" = false ∨ ∀ r ∈ rows, ∀ i n,
        parseNetIPSocketLine (Fields r) (Contains file "udp") ≠ .error (.panic i n)) →
      (∃ r ∈ rows, ∀ e, parseNetIPSocketLine (Fields r) (Contains file "udp") ≠ .ok e) →
      ∃ pre bad post err, rows = pre ++ bad :: post ∧
        (∀ r ∈ pre, ∃ e, parseNetIPSocketLine (Fields r) (Contains file "udp") = .ok e) ∧
        parseNetIPSocketLine (Fields bad) (Contains file "udp") = .error (.error err) ∧
        NewNetIPSocket osOpen file = .error (.error err)) ∧
    (∀ second rest, rows = second :: rest → (Fields second).length < 10 →
      ∃ err, NewNetIPSocket osOpen file = .error (.error err) ∧
        errorsIs err .ErrFileParse = true) := by
  have key : ∀ pre bad post fault, rows = pre ++ bad :: post →
      (∀ r ∈ pre, ∃ e, parseNetIPSocketLine (Fields r) (Contains file "udp") = .ok e) →
      parseNetIPSocketLine (Fields bad) (Contains file "udp") = .error fault →
      NewNetIPSocket osOpen file = .error fault := by
    intro pre bad post fault hrows hpre hbad
    have := scanLoop_error (Contains file "udp") pre bad post fault hbad [] hpre
    simp [NewNetIPSocket, hopen, hrows, this]
  refine ⟨fun pre bad post err hrows hpre hbad => key pre bad post _ hrows hpre hbad, ?_, ?_⟩
  · intro hnp hfail
    obtain ⟨pre, bad, post, hrows, hpre, hbad⟩ := first_failing_row _ rows hfail
    have hmem : bad ∈ rows := by rw [hrows]; simp
    rcases hres : parseNetIPSocketLine (Fields bad) (Contains file "udp") with fault | e
    · rcases fault with err | ⟨i, n⟩
      · exact ⟨pre, bad, post, err, hrows, hpre, hres, key pre bad post _ hrows hpre hres⟩
      · exfalso
        rcases hnp with htcp | hnp
        · rw [htcp] at hres
          exact parse_tcp_no_panic _ i n hres
        · exact hnp bad hmem i n hres
    · exact absurd hres (hbad e)
  · intro second rest hrows hshort
    exact ⟨_, key [] second rest _ (by simp [hrows]) (by simp)
      (parse_short (Fields second) _ hshort), rfl⟩

/-- An instance of `NewNetIPSocket_first_error`: a good row, then a blank
line, then another good row, under a TCP path; and a table whose second line
is blank. -/
theorem NewNetIPSocket_first_error_instance :
    NewNetIPSocket (sampleOpen [sampleHeader, sampleTcpRow, "", sampleTcpRow]) "/proc/net/tcp" =
      .error (.error (.wrapError
        [.text "Error Parsing File", .text ": Less than 10 columns found ", .quote ""]
        (.sentinel .ErrFileParse))) ∧
    (∃ pre bad post err, [sampleTcpRow, "", sampleTcpRow] = pre ++ bad :: post ∧
      (∀ r ∈ pre, ∃ e,
        parseNetIPSocketLine (Fields r) (Contains "/proc/net/tcp" "udp") = .ok e) ∧
      parseNetIPSocketLine (Fields bad) (Contains "/proc/net/tcp" "udp") =
        .error (.error err) ∧
      NewNetIPSocket (sampleOpen [sampleHeader, sampleTcpRow, "", sampleTcpRow])
        "/proc/net/tcp" = .error (.error err)) ∧
    (∃ err, NewNetIPSocket (sampleOpen [sampleHeader, "", sampleUdpRow]) "/proc/net/udp" =
      .error (.error err) ∧ errorsIs err .ErrFileParse = true) :=
  ⟨(NewNetIPSocket_first_error (sampleOpen [sampleHeader, sampleTcpRow, "", sampleTcpRow])
      "/proc/net/tcp" sampleHeader [sampleTcpRow, "", sampleTcpRow] none rfl).1
      [sampleTcpRow] "" [sampleTcpRow] _ rfl
      (by
        intro r hr
        simp only [List.mem_singleton] at hr
        subst hr
        exact ⟨⟨0, 10, 0, 0, 101, 24695, none⟩, by decide⟩)
      (by decide),
   (NewNetIPSocket_first_error (sampleOpen [sampleHeader, sampleTcpRow, "", sampleTcpRow])
      "/proc/net/tcp" sampleHeader [sampleTcpRow, "", sampleTcpRow] none rfl).2.1
      (Or.inl (by decide))
      ⟨"", by simp, fun e h => by
        rw [show parseNetIPSocketLine (Fields "") (Contains "/proc/net/tcp" "udp") =
          .error (.error (.wrapError
            [.text "Error Parsing File", .text ": Less than 10 columns found ", .quote ""]
            (.sentinel .ErrFileParse))) from by decide] at h
        cases h⟩,
   (NewNetIPSocket_first_error (sampleOpen [sampleHeader, "", sampleUdpRow])
      "/proc/net/udp" sampleHeader ["", sampleUdpRow] none rfl).2.2
      "" [sampleUdpRow] rfl (by decide)⟩

/-! ## The table reader and the line decoder: main results -/

/-- C1: a TCP-family source (its path does not contain "udp") that opens,
scans without error and consists of a header line followed by data rows that
all decode, yields a table with one entry per data row: the entry at index `i`
is the decoding of the data row at index `i`, and every entry has `Drops`
nil. -/
theorem NewNetIPSocket_tcp_table (osOpen : String → Except GoError Scanner) (file header : String)
    (rows : List String) (htcp : Contains file "udp" = false)
    (hopen : osOpen file = .ok { lines := header :: rows, err := none })
    (hrows : ∀ r ∈ rows, ∃ e, parseNetIPSocketLine (Fields r) false = .ok e) :
    ∃ table, NewNetIPSocket osOpen file = .ok table ∧ table.length = rows.length ∧
      (∀ (i : Nat) (r : String), rows[i]? = some r →
        ∃ e, table[i]? = some e ∧ parseNetIPSocketLine (Fields r) false = .ok e) ∧
      ∀ e ∈ table, e.Drops = none := by
  obtain ⟨table, htab, hall⟩ := scanLoop_ok false rows [] hrows
  refine ⟨table, ?_, hall.length_eq.symm, ?_, ?_⟩
  · simp [NewNetIPSocket, hopen, htcp, htab]
  · intro i r hr
    have hi : i < rows.length := by
      rcases Nat.lt_or_ge i rows.length with h | h
      · exact h
      · rw [List.getElem?_eq_none h] at hr; cases hr
    have hi2 : i < table.length := by rw [← hall.length_eq]; exact hi
    refine ⟨table[i], List.getElem?_eq_getElem hi2, ?_⟩
    have := List.Forall₂.get hall hi hi2
    rw [List.getElem?_eq_getElem hi] at hr
    cases hr
    simpa using this
  · intro e he
    obtain ⟨i, hi, rfl⟩ := List.getElem_of_mem he
    have hi1 : i < rows.length := by rw [hall.length_eq]; exact hi
    have := List.Forall₂.get hall hi1 hi
    have h2 := (parse_ok_iff _ false _).mp this
    simpa using h2.2.2.2.2.2.2.2.2.2

/-- Witness for `NewNetIPSocket_tcp_table`: a header and two data rows
under the path `/proc/net/tcp`. -/
theorem NewNetIPSocket_tcp_table_witness :
    Contains "/proc/net/tcp" "udp" = false ∧
    ∃ table, NewNetIPSocket (sampleOpen [sampleHeader, sampleTcpRow, sampleUdpRow])
        "/proc/net/tcp" = .ok table ∧
      table.length = [sampleTcpRow, sampleUdpRow].length ∧
      (∀ (i : Nat) (r : String), [sampleTcpRow, sampleUdpRow][i]? = some r →
        ∃ e, table[i]? = some e ∧ parseNetIPSocketLine (Fields r) false = .ok e) ∧
      ∀ e ∈ table, e.Drops = none :=
  ⟨by decide,
   NewNetIPSocket_tcp_table (sampleOpen [sampleHeader, sampleTcpRow, sampleUdpRow])
    "/proc/net/tcp" sampleHeader [sampleTcpRow, sampleUdpRow] (by decide) rfl
    (by
      intro r hr
      simp only [List.mem_cons, List.mem_singleton, List.not_mem_nil, or_false] at hr
      rcases hr with rfl | rfl
      · exact ⟨⟨0, 10, 0, 0, 101, 24695, none⟩, by decide⟩
      · exact ⟨⟨731, 7, 0, 0, 0, 21040, none⟩, by decide⟩)⟩

/-- C2: when `parseNetIPSocketLine` succeeds, field 0 and field 4 split on
`:` into exactly two parts, and the returned entry holds: `Sl`, the first part
of field 0 parsed with base detection; `St`, field 3 parsed in base 16;
`TxQueue` and `RxQueue`, the two parts of field 4 parsed in base 16; `UID`
and `Inode`, fields 7 and 9 parsed with base detection. -/
theorem parseNetIPSocketLine_fields (fields : List String) (isUDP : Bool) (e : NetIPSocketLine)
    (h : parseNetIPSocketLine fields isUDP = .ok e) :
    10 ≤ fields.length ∧
    Split (field fields 0) ':' = [before (field fields 0) ':', after (field fields 0) ':'] ∧
    ParseUint (before (field fields 0) ':') 0 64 = (e.Sl, none) ∧
    ParseUint (field fields 3) 16 64 = (e.St, none) ∧
    Split (field fields 4) ':' = [before (field fields 4) ':', after (field fields 4) ':'] ∧
    ParseUint (before (field fields 4) ':') 16 64 = (e.TxQueue, none) ∧
    ParseUint (after (field fields 4) ':') 16 64 = (e.RxQueue, none) ∧
    ParseUint (field fields 7) 0 64 = (e.UID, none) ∧
    ParseUint (field fields 9) 0 64 = (e.Inode, none) := by
  obtain ⟨h10, hc0, hsl, hst, hc4, htx, hrx, huid, hino, _⟩ := (parse_ok_iff fields isUDP e).mp h
  exact ⟨h10, Split_of_count_one _ _ hc0, hsl, hst, Split_of_count_one _ _ hc4, htx, hrx, huid,
    hino⟩

/-- Witness for `parseNetIPSocketLine_fields`: the sample UDP row. -/
theorem parseNetIPSocketLine_fields_witness :
    parseNetIPSocketLine (Fields sampleUdpRow) true = .ok ⟨731, 7, 0, 0, 0, 21040, some 0⟩ ∧
    ParseUint (before (field (Fields sampleUdpRow) 0) ':') 0 64 = (731, none) ∧
    ParseUint (field (Fields sampleUdpRow) 3) 16 64 = (7, none) ∧
    ParseUint (field (Fields sampleUdpRow) 9) 0 64 = (21040, none) :=
  have h := parseNetIPSocketLine_fields (Fields sampleUdpRow) true
    ⟨731, 7, 0, 0, 0, 21040, some 0⟩ (by decide)
  ⟨by decide, h.2.2.1, h.2.2.2.1, h.2.2.2.2.2.2.2.2⟩

/-- C3: the first data row of the TCP fixture, split on white space and
decoded with `isUDP = false`, yields `Sl` 0, `St` 10, `TxQueue` 0, `RxQueue` 0,
`UID` 101, `Inode` 24695 and `Drops` nil. -/
theorem parseNetIPSocketLine_fixture_row :
    parseNetIPSocketLine
      (Fields "0: 00000000:0016 00000000:0000 0A 00000000:00000000 00:00000000 00000000   101        0 24695 1 0000000000000000 100 0 0 10 0")
      false =
    .ok { Sl := 0, St := 10, TxQueue := 0, RxQueue := 0, UID := 101, Inode := 24695,
          Drops := none } := by
  decide

/-- C4: when `parseNetIPSocketLine` succeeds, `Drops` is non-nil exactly
when `isUDP` holds; under `isUDP` the list has at least 13 fields and `Drops`
points to field 12 parsed with base detection, so that a field 12 of `0`
gives a pointer to 0 and not nil. -/
theorem parseNetIPSocketLine_drops (fields : List String) (isUDP : Bool) (e : NetIPSocketLine)
    (h : parseNetIPSocketLine fields isUDP = .ok e) :
    (e.Drops.isSome = true ↔ isUDP = true) ∧
    (isUDP = true → 13 ≤ fields.length ∧
      ∃ d, ParseUint (field fields 12) 0 64 = (d, none) ∧ e.Drops = some d) ∧
    (isUDP = true → field fields 12 = "0" → e.Drops = some 0) := by
  have hd := ((parse_ok_iff fields isUDP e).mp h).2.2.2.2.2.2.2.2.2
  cases isUDP
  · simp at hd
    simp [hd]
  · simp only [if_true] at hd
    obtain ⟨d, h13, hd12, hdrops⟩ := hd
    refine ⟨by simp [hdrops], fun _ => ⟨h13, d, hd12, hdrops⟩, fun _ h0 => ?_⟩
    rw [h0] at hd12
    have h00 : ParseUint "0" 0 64 = (0, none) := by decide
    rw [h00] at hd12
    rw [hdrops, ← (Prod.mk.inj hd12).1]

/-- Witness for `parseNetIPSocketLine_drops`: the sample UDP row, whose
field 12 is `0`. -/
theorem parseNetIPSocketLine_drops_witness :
    parseNetIPSocketLine (Fields sampleUdpRow) true = .ok ⟨731, 7, 0, 0, 0, 21040, some 0⟩ ∧
    field (Fields sampleUdpRow) 12 = "0" ∧
    (some 0 : Option Nat).isSome = true ∧ 13 ≤ (Fields sampleUdpRow).length :=
  have h := parseNetIPSocketLine_drops (Fields sampleUdpRow) true
    ⟨731, 7, 0, 0, 0, 21040, some 0⟩ (by decide)
  ⟨by decide, by decide, h.1.mpr rfl, (h.2.1 rfl).1⟩

/-- C5 (the code departs from the claim): with `isUDP` set, rows of 10, 11
and 12 fields whose fields 0, 3, 4, 7 and 9 are valid do not make
`parseNetIPSocketLine` return an error: evaluating `fields[12]` panics with an
index out of range. -/
theorem parseNetIPSocketLine_udp_short_row_panics :
    parseNetIPSocketLine (sampleFields "0:") true = .error (.panic 12 10) ∧
    parseNetIPSocketLine (sampleFields "0:" ++ ["1"]) true = .error (.panic 12 11) ∧
    parseNetIPSocketLine (sampleFields "0:" ++ ["1", "0000000000000000"]) true =
      .error (.panic 12 12) := by
  decide

/-- C6 (the code departs from the claim): under a UDP path, a source whose
first data row has 10 valid columns and whose next line is blank does not
make `NewNetIPSocket` return an error: the first data row ends in an index out
of range on `fields[12]`, so the call panics.  The same lines under a TCP path
give the error of the blank line and no table. -/
theorem NewNetIPSocket_udp_short_row_panics :
    parseNetIPSocketLine (Fields sampleShortRow) true = .error (.panic 12 10) ∧
    NewNetIPSocket (sampleOpen [sampleHeader, sampleShortRow, ""]) "/proc/net/udp" =
      .error (.panic 12 10) ∧
    NewNetIPSocket (sampleOpen [sampleHeader, sampleShortRow, ""]) "/proc/net/tcp" =
      .error (.error (.wrapError
        [.text "Error Parsing File", .text ": Less than 10 columns found ", .quote ""]
        (.sentinel .ErrFileParse))) := by
  decide

/-- C7 (the code departs from the claim): a row of ten fields whose slot
is not a number makes `parseNetIPSocketLine` return an error that does not
wrap `ErrFileParse`; what it wraps is the `*strconv.NumError`, and through it
`strconv.ErrSyntax`. -/
theorem parseNetIPSocketLine_bad_number_not_ErrFileParse :
    ∃ err, parseNetIPSocketLine (sampleFields "x:") false = .error (.error err) ∧
      errorsIs err .ErrFileParse = false ∧ errorsIs err .ErrSyntax = true ∧
      err.Unwrap = some (.numError "ParseUint" "x" (.sentinel .ErrSyntax)) :=
  ⟨_, rfl, rfl, rfl, rfl⟩

/-- C8: for either family flag, (a) a list of fewer than 10 fields fails
with an error that wraps `ErrFileParse` and whose message ends with the quoted
text of the fields in order with one space between each two neighbours; (b) a list of at least 10 fields whose
field 0 does not hold exactly one `:` fails with such an error whose message
ends with the quoted field 0; (c) a list of at least 10 fields with valid
fields 0 and 3 whose field 4 does not hold exactly one `:` fails with such an
error whose message ends with the quoted field 4.  The quoting is that of
the verb `%q`, whatever it does to the text. -/
theorem parseNetIPSocketLine_shape_errors (fields : List String) (isUDP : Bool) :
    (fields.length < 10 →
      ∃ err, parseNetIPSocketLine fields isUDP = .error (.error err) ∧
        errorsIs err .ErrFileParse = true ∧
        ∀ quote quoteRune errnoText, Msg.render quote quoteRune errnoText err.Error =
          "Error Parsing File: Less than 10 columns found " ++
            quote (String.intercalate " " fields)) ∧
    (10 ≤ fields.length → countSep (field fields 0) ':' ≠ 1 →
      ∃ err, parseNetIPSocketLine fields isUDP = .error (.error err) ∧
        errorsIs err .ErrFileParse = true ∧
        ∀ quote quoteRune errnoText, Msg.render quote quoteRune errnoText err.Error =
          "Error Parsing File: Unable to parse sl field in line " ++ quote (field fields 0)) ∧
    (10 ≤ fields.length → countSep (field fields 0) ':' = 1 →
      validUint (before (field fields 0) ':') 0 → validUint (field fields 3) 16 →
      countSep (field fields 4) ':' ≠ 1 →
      ∃ err, parseNetIPSocketLine fields isUDP = .error (.error err) ∧
        errorsIs err .ErrFileParse = true ∧
        ∀ quote quoteRune errnoText, Msg.render quote quoteRune errnoText err.Error =
          "Error Parsing File: Missing colon for tx/rx queues in socket line " ++
            quote (field fields 4)) :=
  ⟨fun h => ⟨_, parse_short fields isUDP h, rfl, fun _ _ _ => by
      rw [GoError.Error, render_text_text_quote, Join_eq_intercalate]; rfl⟩,
   fun h hc => ⟨_, parse_sl_colon fields isUDP h hc, rfl, fun _ _ _ => by
      rw [GoError.Error, render_text_text_quote]; rfl⟩,
   fun h hc0 hsl hst hc => ⟨_, parse_queue_colon fields isUDP h hc0 hsl hst hc, rfl,
    fun _ _ _ => by rw [GoError.Error, render_text_text_quote]; rfl⟩⟩

/-- Witness for `parseNetIPSocketLine_shape_errors`: a row of 9 fields
and the empty list, a slot of `5` and a slot of `1:2:3`, and a queue field of
`00000000`. -/
theorem parseNetIPSocketLine_shape_errors_witness :
    (∃ err, parseNetIPSocketLine (sampleFields "0:").dropLast false = .error (.error err) ∧
      errorsIs err .ErrFileParse = true ∧
      ∀ quote quoteRune errnoText, Msg.render quote quoteRune errnoText err.Error =
        "Error Parsing File: Less than 10 columns found " ++
          quote "0: 00000000:0016 00000000:0000 0A 00000000:00000000 00:00000000 00000000 101 0") ∧
    (∃ err, parseNetIPSocketLine [] true = .error (.error err) ∧
      errorsIs err .ErrFileParse = true ∧
      ∀ quote quoteRune errnoText, Msg.render quote quoteRune errnoText err.Error =
        "Error Parsing File: Less than 10 columns found " ++ quote "") ∧
    (∃ err, parseNetIPSocketLine (sampleFields "5") false = .error (.error err) ∧
      errorsIs err .ErrFileParse = true ∧
      ∀ quote quoteRune errnoText, Msg.render quote quoteRune errnoText err.Error =
        "Error Parsing File: Unable to parse sl field in line " ++ quote "5") ∧
    (∃ err, parseNetIPSocketLine (sampleFields "1:2:3") true = .error (.error err) ∧
      errorsIs err .ErrFileParse = true ∧
      ∀ quote quoteRune errnoText, Msg.render quote quoteRune errnoText err.Error =
        "Error Parsing File: Unable to parse sl field in line " ++ quote "1:2:3") ∧
    (∃ err, parseNetIPSocketLine ((sampleFields "0:").set 4 "00000000") false =
        .error (.error err) ∧
      errorsIs err .ErrFileParse = true ∧
      ∀ quote quoteRune errnoText, Msg.render quote quoteRune errnoText err.Error =
        "Error Parsing File: Missing colon for tx/rx queues in socket line " ++
          quote "00000000") :=
  ⟨(parseNetIPSocketLine_shape_errors (sampleFields "0:").dropLast false).1 (by decide),
   (parseNetIPSocketLine_shape_errors [] true).1 (by decide),
   (parseNetIPSocketLine_shape_errors (sampleFields "5") false).2.1 (by decide) (by decide),
   (parseNetIPSocketLine_shape_errors (sampleFields "1:2:3") true).2.1 (by decide) (by decide),
   (parseNetIPSocketLine_shape_errors ((sampleFields "0:").set 4 "00000000") false).2.2
     (by decide) (by decide) (by decide) (by decide) (by decide)⟩

/-- C9: with `isUDP = false`, `parseNetIPSocketLine` succeeds exactly when
the list has at least 10 fields, field 0 holds exactly one `:` with a valid
numeral (base detected from the prefix) before it, field 3 is a hexadecimal
numeral below `2 ^ 64`, field 4 holds exactly one `:` between two hexadecimal
numerals below `2 ^ 64`, and fields 7 and 9 are valid numerals (base detected
from the prefix).  So such a row of exactly 10 fields succeeds, and no row of
9 fields does. -/
theorem parseNetIPSocketLine_tcp_success_iff (fields : List String) :
    ((∃ e, parseNetIPSocketLine fields false = .ok e) ↔
      10 ≤ fields.length ∧
      countSep (field fields 0) ':' = 1 ∧ validUint (before (field fields 0) ':') 0 ∧
      isHex64 (field fields 3) ∧
      countSep (field fields 4) ':' = 1 ∧ isHex64 (before (field fields 4) ':') ∧
      isHex64 (after (field fields 4) ':') ∧
      validUint (field fields 7) 0 ∧ validUint (field fields 9) 0) ∧
    (fields.length = 10 →
      countSep (field fields 0) ':' = 1 → validUint (before (field fields 0) ':') 0 →
      isHex64 (field fields 3) →
      countSep (field fields 4) ':' = 1 → isHex64 (before (field fields 4) ':') →
      isHex64 (after (field fields 4) ':') →
      validUint (field fields 7) 0 → validUint (field fields 9) 0 →
      ∃ e, parseNetIPSocketLine fields false = .ok e) ∧
    (fields.length = 9 → ∀ e, parseNetIPSocketLine fields false ≠ .ok e) := by
  have hiff : (∃ e, parseNetIPSocketLine fields false = .ok e) ↔
      10 ≤ fields.length ∧
      countSep (field fields 0) ':' = 1 ∧ validUint (before (field fields 0) ':') 0 ∧
      isHex64 (field fields 3) ∧
      countSep (field fields 4) ':' = 1 ∧ isHex64 (before (field fields 4) ':') ∧
      isHex64 (after (field fields 4) ':') ∧
      validUint (field fields 7) 0 ∧ validUint (field fields 9) 0 := by
    simp only [← validUint_hex_iff]
    constructor
    · rintro ⟨e, he⟩
      obtain ⟨h10, hc0, hsl, hst, hc4, htx, hrx, huid, hino, _⟩ :=
        (parse_ok_iff fields false e).mp he
      unfold validUint
      rw [hsl, hst, htx, hrx, huid, hino]
      exact ⟨h10, hc0, rfl, rfl, hc4, rfl, rfl, rfl, rfl⟩
    · rintro ⟨h10, hc0, hsl, hst, hc4, htx, hrx, huid, hino⟩
      unfold validUint at hsl hst htx hrx huid hino
      refine ⟨⟨(ParseUint (before (field fields 0) ':') 0 64).1,
        (ParseUint (field fields 3) 16 64).1,
        (ParseUint (before (field fields 4) ':') 16 64).1,
        (ParseUint (after (field fields 4) ':') 16 64).1,
        (ParseUint (field fields 7) 0 64).1, (ParseUint (field fields 9) 0 64).1, none⟩, ?_⟩
      rw [parse_ok_iff]
      exact ⟨h10, hc0, Prod.ext rfl hsl, Prod.ext rfl hst, hc4, Prod.ext rfl htx,
        Prod.ext rfl hrx, Prod.ext rfl huid, Prod.ext rfl hino, by simp⟩
  refine ⟨hiff, ?_, ?_⟩
  · intro h10 hc0 hsl hst hc4 htx hrx huid hino
    exact hiff.mpr ⟨by omega, hc0, hsl, hst, hc4, htx, hrx, huid, hino⟩
  · intro h9 e he
    have := ((parse_ok_iff fields false e).mp he).1
    omega

/-- Witness for `parseNetIPSocketLine_tcp_success_iff`: a row of exactly
10 valid fields, and the same row without its last field. -/
theorem parseNetIPSocketLine_tcp_success_iff_witness :
    (∃ e, parseNetIPSocketLine (sampleFields "0:") false = .ok e) ∧
    (∀ e, parseNetIPSocketLine (sampleFields "0:").dropLast false ≠ .ok e) :=
  ⟨(parseNetIPSocketLine_tcp_success_iff (sampleFields "0:")).2.1 (by decide) (by decide)
    (by decide) (by decide) (by decide) (by decide) (by decide) (by decide) (by decide),
   (parseNetIPSocketLine_tcp_success_iff (sampleFields "0:").dropLast).2.2 (by decide)⟩

/-- C10: an entry whose numbers fit 64 bits, written out as a field list
(field 0 the decimal slot followed by a colon, field 3 the hexadecimal state,
field 4 the two hexadecimal queue sizes around a colon, fields 7 and 9 the
decimal uid and inode, and for UDP field 12 the decimal drops; at least 10
fields for TCP and 13 for UDP, the other fields arbitrary), decodes to that
same entry. -/
theorem parseNetIPSocketLine_roundtrip (e : NetIPSocketLine) (isUDP : Bool)
    (fields : List String) (u3 u4 u5 : Bool)
    (hSl : e.Sl < 2 ^ 64) (hSt : e.St < 2 ^ 64) (hTx : e.TxQueue < 2 ^ 64)
    (hRx : e.RxQueue < 2 ^ 64) (hUID : e.UID < 2 ^ 64) (hInode : e.Inode < 2 ^ 64)
    (hlen : (if isUDP = true then 13 else 10) ≤ fields.length)
    (h0 : field fields 0 = decimal e.Sl ++ ":")
    (h3 : field fields 3 = hexadecimal u3 e.St)
    (h4 : field fields 4 = hexadecimal u4 e.TxQueue ++ ":" ++ hexadecimal u5 e.RxQueue)
    (h7 : field fields 7 = decimal e.UID)
    (h9 : field fields 9 = decimal e.Inode)
    (hdrops : if isUDP = true then
        ∃ d, d < 2 ^ 64 ∧ e.Drops = some d ∧ field fields 12 = decimal d
      else e.Drops = none) :
    parseNetIPSocketLine fields isUDP = .ok e := by
  have hcolon : (":" : String) = String.singleton ':' := rfl
  have hempty : ∀ c ∈ ("" : String).data, c ≠ ':' := by simp
  have hj0 := countSep_join (decimal e.Sl) "" ':' (decimal_no_colon _) hempty
  have hj4 := countSep_join (hexadecimal u4 e.TxQueue) (hexadecimal u5 e.RxQueue) ':'
    (hexadecimal_no_colon _ _) (hexadecimal_no_colon _ _)
  have h0' : field fields 0 = decimal e.Sl ++ String.singleton ':' ++ "" := by
    rw [h0, hcolon]; simp
  rw [← hcolon] at hj4
  rw [← h0'] at hj0
  rw [← h4] at hj4
  rw [parse_ok_iff]
  refine ⟨?_, hj0.1, ?_, ?_, hj4.1, ?_, ?_, ?_, ?_, ?_⟩
  · split at hlen <;> omega
  · rw [hj0.2.1]; exact ParseUint_decimal _ hSl
  · rw [h3]; exact ParseUint_hexadecimal _ _ hSt
  · rw [hj4.2.1]; exact ParseUint_hexadecimal _ _ hTx
  · rw [hj4.2.2]; exact ParseUint_hexadecimal _ _ hRx
  · rw [h7]; exact ParseUint_decimal _ hUID
  · rw [h9]; exact ParseUint_decimal _ hInode
  · cases isUDP
    · simpa using hdrops
    · simp only [if_true] at hdrops hlen ⊢
      obtain ⟨d, hd, hdr, h12⟩ := hdrops
      exact ⟨d, hlen, by rw [h12]; exact ParseUint_decimal _ hd, hdr⟩

/-- Witness for `parseNetIPSocketLine_roundtrip`: a UDP entry with the
largest state and 7 drops, its state and queue sizes written in upper, upper
and lower case. -/
theorem parseNetIPSocketLine_roundtrip_witness :
    parseNetIPSocketLine
      ["731:", "a", "b", "FFFFFFFFFFFFFFFF", "1F:2a", "c", "d", "1000", "e", "21040", "f", "g",
       "7"] true =
    .ok { Sl := 731, St := 2 ^ 64 - 1, TxQueue := 31, RxQueue := 42, UID := 1000,
          Inode := 21040, Drops := some 7 } :=
  parseNetIPSocketLine_roundtrip
    { Sl := 731, St := 2 ^ 64 - 1, TxQueue := 31, RxQueue := 42, UID := 1000, Inode := 21040,
      Drops := some 7 } true
    ["731:", "a", "b", "FFFFFFFFFFFFFFFF", "1F:2a", "c", "d", "1000", "e", "21040", "f", "g", "7"]
    true true false (by decide) (by decide) (by decide) (by decide) (by decide) (by decide)
    (by decide) (by decide) (by decide) (by decide) (by decide) (by decide)
    ⟨7, by decide, rfl, by decide⟩

/-- C11, as stated, fails: for a path that does not exist `os.Open` returns
a `*fs.PathError` around `ENOENT`, `NewNetIPSocket` returns it, and it does not
wrap `ErrFileRead`. -/
theorem NewNetIPSocket_open_error_not_ErrFileRead :
    ∃ err, NewNetIPSocket sampleMissing "../fixtures/14804/net/tcp_not_found" =
        .error (.error err) ∧
      errorsIs err .ErrFileRead = false :=
  ⟨_, rfl, rfl⟩

/-- C11, amended: when `os.Open` fails, `NewNetIPSocket` returns the error
of `os.Open` unchanged and no table; for the `*fs.PathError` around a
`syscall.Errno` that `os.Open` produces, this error wraps neither
`ErrFileParse` nor `ErrFileRead`. -/
theorem NewNetIPSocket_open_error (osOpen : String → Except GoError Scanner) (file : String)
    (err : GoError) (hopen : osOpen file = .error err) :
    NewNetIPSocket osOpen file = .error (.error err) ∧
    (∀ op path n, err = .pathError op path (.errno n) →
      errorsIs err .ErrFileParse = false ∧ errorsIs err .ErrFileRead = false) := by
  refine ⟨by simp [NewNetIPSocket, hopen], ?_⟩
  rintro op path n rfl
  exact ⟨rfl, rfl⟩

/-- Witness for `NewNetIPSocket_open_error`: the missing fixture of the
test `TestNewNetIPSocketTCP_NoFile`. -/
theorem NewNetIPSocket_open_error_witness :
    NewNetIPSocket sampleMissing "../fixtures/14804/net/tcp_not_found" =
      .error (.error (.pathError "open" "../fixtures/14804/net/tcp_not_found" (.errno 2))) ∧
    errorsIs (.pathError "open" "../fixtures/14804/net/tcp_not_found" (.errno 2))
      .ErrFileParse = false ∧
    errorsIs (.pathError "open" "../fixtures/14804/net/tcp_not_found" (.errno 2))
      .ErrFileRead = false :=
  have h := NewNetIPSocket_open_error sampleMissing "../fixtures/14804/net/tcp_not_found"
    (.pathError "open" "../fixtures/14804/net/tcp_not_found" (.errno 2)) rfl
  ⟨h.1, h.2 _ _ _ rfl⟩

/-- C12: two sources under the same path whose lines differ only in the
first one give the same result, which is what the rows after the first line
give on their own: the first line is never decoded. -/
theorem NewNetIPSocket_header_ignored (osOpenA osOpenB : String → Except GoError Scanner)
    (file headerA headerB : String) (rows : List String) (scanErr : Option GoError)
    (hopenA : osOpenA file = .ok { lines := headerA :: rows, err := scanErr })
    (hopenB : osOpenB file = .ok { lines := headerB :: rows, err := scanErr }) :
    NewNetIPSocket osOpenA file = NewNetIPSocket osOpenB file ∧
    NewNetIPSocket osOpenA file = readRows (Contains file "udp") rows scanErr := by
  rw [NewNetIPSocket_eq_readRows osOpenA file _ hopenA,
    NewNetIPSocket_eq_readRows osOpenB file _ hopenB]
  exact ⟨rfl, rfl⟩

/-- Witness for `NewNetIPSocket_header_ignored`: a first line that is a
well-formed data row and a first line that is blank, before one data row;
both give the one entry of that row. -/
theorem NewNetIPSocket_header_ignored_witness :
    NewNetIPSocket (sampleOpen [sampleTcpRow, sampleUdpRow]) "/proc/net/tcp" =
      NewNetIPSocket (sampleOpen ["", sampleUdpRow]) "/proc/net/tcp" ∧
    NewNetIPSocket (sampleOpen [sampleTcpRow, sampleUdpRow]) "/proc/net/tcp" =
      readRows (Contains "/proc/net/tcp" "udp") [sampleUdpRow] none ∧
    readRows (Contains "/proc/net/tcp" "udp") [sampleUdpRow] none =
      .ok [⟨731, 7, 0, 0, 0, 21040, none⟩] :=
  have h := NewNetIPSocket_header_ignored (sampleOpen [sampleTcpRow, sampleUdpRow])
    (sampleOpen ["", sampleUdpRow]) "/proc/net/tcp" sampleTcpRow "" [sampleUdpRow] none rfl rfl
  ⟨h.1, h.2, by decide⟩

/-- C13: two lists of at least 10 fields (13 under `isUDP`), of whatever
lengths, that agree at the indices 0, 3, 4, 7 and 9 (and 12 under `isUDP`)
give the same result, entry or error. -/
theorem parseNetIPSocketLine_unused_columns (fieldsA fieldsB : List String) (isUDP : Bool)
    (hlenA : (if isUDP = true then 13 else 10) ≤ fieldsA.length)
    (hlenB : (if isUDP = true then 13 else 10) ≤ fieldsB.length)
    (h0 : fieldsA[0]? = fieldsB[0]?) (h3 : fieldsA[3]? = fieldsB[3]?)
    (h4 : fieldsA[4]? = fieldsB[4]?) (h7 : fieldsA[7]? = fieldsB[7]?)
    (h9 : fieldsA[9]? = fieldsB[9]?) (h12 : isUDP = true → fieldsA[12]? = fieldsB[12]?) :
    parseNetIPSocketLine fieldsA isUDP = parseNetIPSocketLine fieldsB isUDP := by
  have hA : 10 ≤ fieldsA.length := by split at hlenA <;> omega
  have hB : 10 ≤ fieldsB.length := by split at hlenB <;> omega
  have e0 := field_eq_of_getElem? _ _ _ h0
  have e3 := field_eq_of_getElem? _ _ _ h3
  have e4 := field_eq_of_getElem? _ _ _ h4
  have e7 := field_eq_of_getElem? _ _ _ h7
  have e9 := field_eq_of_getElem? _ _ _ h9
  have e12 : isUDP = true → index fieldsA 12 = index fieldsB 12 := by
    intro hu
    simp only [hu, if_true] at hlenA hlenB
    rw [index_of_lt fieldsA 12 (by omega), index_of_lt fieldsB 12 (by omega),
      field_eq_of_getElem? _ _ _ (h12 hu)]
  unfold parseNetIPSocketLine
  rw [if_neg (by omega), if_neg (by omega)]
  simp only [index_of_lt fieldsA 0 (by omega), index_of_lt fieldsA 3 (by omega),
    index_of_lt fieldsA 4 (by omega), index_of_lt fieldsA 7 (by omega),
    index_of_lt fieldsA 9 (by omega), index_of_lt fieldsB 0 (by omega),
    index_of_lt fieldsB 3 (by omega), index_of_lt fieldsB 4 (by omega),
    index_of_lt fieldsB 7 (by omega), index_of_lt fieldsB 9 (by omega), e0, e3, e4, e7, e9]
  cases isUDP
  · rfl
  · rw [e12 rfl]

/-- Witness for `parseNetIPSocketLine_unused_columns`: the 17 fields of
the sample TCP row against 10 fields that agree with it at 0, 3, 4, 7, 9, and
the sample UDP row against a row with other addresses. -/
theorem parseNetIPSocketLine_unused_columns_witness :
    parseNetIPSocketLine (Fields sampleTcpRow) false =
      parseNetIPSocketLine ["0:", "x", "", "0A", "00000000:00000000", "y", "", "101", "z",
        "24695"] false ∧
    parseNetIPSocketLine (Fields sampleUdpRow) true =
      parseNetIPSocketLine ["731:", "a", "b", "07", "00000000:00000000", "c", "d", "0", "e",
        "21040", "f", "g", "0", "h"] true :=
  ⟨parseNetIPSocketLine_unused_columns (Fields sampleTcpRow)
    ["0:", "x", "", "0A", "00000000:00000000", "y", "", "101", "z", "24695"] false
    (by decide) (by decide) (by decide) (by decide) (by decide) (by decide) (by decide)
    (by decide),
   parseNetIPSocketLine_unused_columns (Fields sampleUdpRow)
    ["731:", "a", "b", "07", "00000000:00000000", "c", "d", "0", "e", "21040", "f", "g", "0",
      "h"] true
    (by decide) (by decide) (by decide) (by decide) (by decide) (by decide) (by decide)
    (fun _ => by decide)⟩

/-- C14: once the file is open, the rows after the header are decoded with
`isUDP = true` when the path has `udp` somewhere in it, in that very case,
and with `isUDP = false` otherwise; so `/proc/net/UDP` is read as TCP (no
drops), and a TCP table under a directory named `udp-dumps` is read as UDP
(field 12 becomes the drops). -/
theorem NewNetIPSocket_family (osOpen : String → Except GoError Scanner) (file : String)
    (f : Scanner) (hopen : osOpen file = .ok f) :
    ((∃ pre post, file.data = pre ++ "udp".data ++ post) →
      NewNetIPSocket osOpen file = readRows true (f.lines.drop 1) f.err) ∧
    ((¬ ∃ pre post, file.data = pre ++ "udp".data ++ post) →
      NewNetIPSocket osOpen file = readRows false (f.lines.drop 1) f.err) ∧
    NewNetIPSocket (sampleOpen [sampleHeader, sampleUdpRow]) "/proc/net/UDP" =
      .ok [⟨731, 7, 0, 0, 0, 21040, none⟩] ∧
    NewNetIPSocket (sampleOpen [sampleHeader, sampleTcpRow]) "/udp-dumps/net/tcp" =
      .ok [⟨0, 10, 0, 0, 101, 24695, some 100⟩] := by
  rw [NewNetIPSocket_eq_readRows osOpen file f hopen]
  refine ⟨fun h => ?_, fun h => ?_, by decide, by decide⟩
  · have : Contains file "udp" = true := (containsAux_iff _ _).mpr h
    rw [this]
  · have : Contains file "udp" = false := by
      rcases hc : Contains file "udp" with _ | _
      · rfl
      · exact absurd ((containsAux_iff _ _).mp hc) h
    rw [this]

/-- Witness for `NewNetIPSocket_family`: the path `/proc/net/udp6`, which
holds `udp` after `/proc/net/` and before `6`. -/
theorem NewNetIPSocket_family_witness :
    NewNetIPSocket (sampleOpen [sampleHeader, sampleUdpRow]) "/proc/net/udp6" =
      readRows true [sampleUdpRow] none ∧
    readRows true [sampleUdpRow] none = .ok [⟨731, 7, 0, 0, 0, 21040, some 0⟩] :=
  ⟨(NewNetIPSocket_family (sampleOpen [sampleHeader, sampleUdpRow]) "/proc/net/udp6"
      { lines := [sampleHeader, sampleUdpRow], err := none } rfl).1
      ⟨"/proc/net/".data, "6".data, by decide⟩,
   by decide⟩

/-- C15: the decoder reports the first failing step in the order column
count, slot colon, slot number, state, queue colon, tx_queue, rx_queue, uid,
inode, drops.  (1) When two different steps fail on a list, the result is
the error of the first failing step of the list.  (2) The error of the first
failing step among the first nine is returned whatever the later fields hold.
(3) When the first nine pass and field 12 is there, a failing drops step
gives its error.  (4) The errors of the tx_queue and rx_queue steps are never
the same error. -/
theorem parseNetIPSocketLine_first_failure (fields : List String) (isUDP : Bool) :
    (∀ s t, s ≠ t → (stepFailure fields isUDP s).isSome = true →
      (stepFailure fields isUDP t).isSome = true →
      ∃ err, Step.order.findSome? (stepFailure fields isUDP) = some err ∧
        parseNetIPSocketLine fields isUDP = .error (.error err)) ∧
    (∀ err, Step.beforeDrops.findSome? (stepFailure fields isUDP) = some err →
      parseNetIPSocketLine fields isUDP = .error (.error err)) ∧
    (Step.beforeDrops.findSome? (stepFailure fields isUDP) = none → 13 ≤ fields.length →
      ∀ err, stepFailure fields isUDP .drops = some err →
        parseNetIPSocketLine fields isUDP = .error (.error err)) ∧
    (∀ errTx errRx, stepFailure fields isUDP .txQueue = some errTx →
      stepFailure fields isUDP .rxQueue = some errRx → errTx ≠ errRx) := by
  refine ⟨?_, parse_first_of_nine fields isUDP, fun h h13 err hd =>
    parse_drops_failure fields isUDP err h h13 hd, ?_⟩
  · intro s t hst hs ht
    have hex : ∃ x ∈ Step.beforeDrops, (stepFailure fields isUDP x).isSome = true := by
      have hmem : ∀ x : Step, x ≠ .drops → x ∈ Step.beforeDrops := by
        intro x hx
        cases x <;> first | exact absurd rfl hx | decide
      by_cases hsd : s = .drops
      · exact ⟨t, hmem t (by rw [← hsd]; exact fun h => hst h.symm), ht⟩
      · exact ⟨s, hmem s hsd, hs⟩
    have hsome := List.findSome?_isSome_iff.mpr hex
    obtain ⟨err, herr⟩ := Option.isSome_iff_exists.mp hsome
    refine ⟨err, ?_, parse_first_of_nine fields isUDP err herr⟩
    rw [Step.order, List.findSome?_append, herr]
    rfl
  · intro errTx errRx htx hrx
    simp only [stepFailure] at htx hrx
    rcases h1 : ParseUint (before (field fields 4) ':') 16 64 with ⟨v1, _ | e1⟩
    · simp [h1, numFailure] at htx
    rcases h2 : ParseUint (after (field fields 4) ':') 16 64 with ⟨v2, _ | e2⟩
    · simp [h2, numFailure] at hrx
    simp only [h1, numFailure, Option.some.injEq] at htx
    simp only [h2, numFailure, Option.some.injEq] at hrx
    rw [← htx, ← hrx]
    have ha : Errorf "%s: Cannot parse tx_queue value in %q: %w"
        [.err (.sentinel .ErrFileParse), .uint v1, .err e1] =
        .wrapError ([.text "Error Parsing File", .text ": Cannot parse tx_queue value in ",
          .quoteRune v1, .text ": "] ++ (e1.Error ++ [])) e1 := rfl
    have hb : Errorf "%s: Cannot parse trx_queue value in %q: %w"
        [.err (.sentinel .ErrFileParse), .uint v2, .err e2] =
        .wrapError ([.text "Error Parsing File", .text ": Cannot parse trx_queue value in ",
          .quoteRune v2, .text ": "] ++ (e2.Error ++ [])) e2 := rfl
    rw [ha, hb]
    intro h
    injection h with hmsg _
    simp at hmsg

/-- Witness for `parseNetIPSocketLine_first_failure`: a row with a bad
slot and a bad inode gives the slot error; a queue field `zz:yy` gives the
tx_queue error, which is not the rx_queue error of that row; a UDP row of 13
fields with drops `x` gives the drops error. -/
theorem parseNetIPSocketLine_first_failure_witness :
    (∃ err, Step.order.findSome? (stepFailure ((sampleFields "x:").set 9 "bad") false) =
        some err ∧
      parseNetIPSocketLine ((sampleFields "x:").set 9 "bad") false = .error (.error err)) ∧
    parseNetIPSocketLine ((sampleFields "x:").set 9 "bad") false =
      .error (.error (Errorf "%s: Unable to parse sl field in %q: %w"
        [.err (.sentinel .ErrFileParse), .uint 0,
         .err (.numError "ParseUint" "x" (.sentinel .ErrSyntax))])) ∧
    parseNetIPSocketLine ((sampleFields "0:").set 4 "zz:yy") true =
      .error (.error (Errorf "%s: Cannot parse tx_queue value in %q: %w"
        [.err (.sentinel .ErrFileParse), .uint 0,
         .err (.numError "ParseUint" "zz" (.sentinel .ErrSyntax))])) ∧
    Errorf "%s: Cannot parse tx_queue value in %q: %w"
        [.err (.sentinel .ErrFileParse), .uint 0,
         .err (.numError "ParseUint" "zz" (.sentinel .ErrSyntax))] ≠
      Errorf "%s: Cannot parse trx_queue value in %q: %w"
        [.err (.sentinel .ErrFileParse), .uint 0,
         .err (.numError "ParseUint" "yy" (.sentinel .ErrSyntax))] ∧
    parseNetIPSocketLine (sampleFields "0:" ++ ["1", "0000000000000000", "x"]) true =
      .error (.error (Errorf "%s: Cannot parse drops value in %q: %w"
        [.err (.sentinel .ErrFileParse), .uint 0,
         .err (.numError "ParseUint" "x" (.sentinel .ErrSyntax))])) :=
  ⟨(parseNetIPSocketLine_first_failure ((sampleFields "x:").set 9 "bad") false).1
      .sl .inode (by decide) (by decide) (by decide),
   (parseNetIPSocketLine_first_failure ((sampleFields "x:").set 9 "bad") false).2.1 _
      (by decide),
   (parseNetIPSocketLine_first_failure ((sampleFields "0:").set 4 "zz:yy") true).2.1 _
      (by decide),
   (parseNetIPSocketLine_first_failure ((sampleFields "0:").set 4 "zz:yy") true).2.2.2 _ _
      (by decide) (by decide),
   (parseNetIPSocketLine_first_failure (sampleFields "0:" ++ ["1", "0000000000000000", "x"])
      true).2.2.1 (by decide) (by decide) _ (by decide)⟩

/-- C16: base detection on the slot, uid, inode and drops fields.  (1) A
numeral made of `0` and a further decimal digit, and whatever follows, is
read in base 8: when it parses, every character after the `0` is an octal
digit or an underscore and the value is the octal one; (2) so such a numeral
holding `8` or `9` is refused.  (3) A numeral that does not start with `0` is
read in base 10.  (4) `0x` before at least one character selects base 16.
(5) In the decoder a uid of `010` gives 8, of `0x1f` gives 31, of `10` gives
10, and uids of `08` and `09` are refused.  (6) State and queues are read in
base 16 whatever they start with: a text starting with `0x` is no valid state
or queue size, a state of `10` is 16 and a state of `0x0A` is refused. -/
theorem ParseUint_base_detection :
    (∀ (d : Char) (rest : List Char) (v : Nat), '0' ≤ d → d ≤ '9' →
      ParseUint (String.mk ('0' :: d :: rest)) 0 64 = (v, none) →
      (∀ c ∈ d :: rest, c = '_' ∨ (digitOf 8 c).isSome = true) ∧
        v = accValue 8 true 0 (d :: rest)) ∧
    (∀ (d : Char) (rest : List Char), '0' ≤ d → d ≤ '9' →
      ('8' ∈ d :: rest ∨ '9' ∈ d :: rest) → ¬ validUint (String.mk ('0' :: d :: rest)) 0) ∧
    (∀ (c : Char) (rest : List Char) (v : Nat), c ≠ '0' →
      ParseUint (String.mk (c :: rest)) 0 64 = (v, none) →
      (∀ x ∈ c :: rest, x = '_' ∨ (digitOf 10 x).isSome = true) ∧
        v = accValue 10 true 0 (c :: rest)) ∧
    (∀ (p c : Char) (rest : List Char) (v : Nat), p = 'x' ∨ p = 'X' →
      ParseUint (String.mk ('0' :: p :: c :: rest)) 0 64 = (v, none) →
      (∀ x ∈ c :: rest, x = '_' ∨ (digitOf 16 x).isSome = true) ∧
        v = accValue 16 true 0 (c :: rest)) ∧
    (parseNetIPSocketLine ((sampleFields "0:").set 7 "010") false =
        .ok ⟨0, 10, 0, 0, 8, 24695, none⟩ ∧
      parseNetIPSocketLine ((sampleFields "0:").set 7 "0x1f") false =
        .ok ⟨0, 10, 0, 0, 31, 24695, none⟩ ∧
      parseNetIPSocketLine ((sampleFields "0:").set 7 "10") false =
        .ok ⟨0, 10, 0, 0, 10, 24695, none⟩ ∧
      (∀ e, parseNetIPSocketLine ((sampleFields "0:").set 7 "08") false ≠ .ok e) ∧
      (∀ e, parseNetIPSocketLine ((sampleFields "0:").set 7 "09") false ≠ .ok e)) ∧
    ((∀ (p : Char) (rest : List Char), p = 'x' ∨ p = 'X' →
        ¬ validUint (String.mk ('0' :: p :: rest)) 16) ∧
      parseNetIPSocketLine ((sampleFields "0:").set 3 "10") false =
        .ok ⟨0, 16, 0, 0, 101, 24695, none⟩ ∧
      (∀ e, parseNetIPSocketLine ((sampleFields "0:").set 3 "0x0A") false ≠ .ok e)) := by
  have octal : ∀ (d : Char) (rest : List Char) (v : Nat), '0' ≤ d → d ≤ '9' →
      ParseUint (String.mk ('0' :: d :: rest)) 0 64 = (v, none) →
      (∀ c ∈ d :: rest, c = '_' ∨ (digitOf 8 c).isSome = true) ∧
        v = accValue 8 true 0 (d :: rest) := by
    intro d rest v h0 h9 hp
    obtain ⟨⟨_, hdig, _, _⟩, hv⟩ := (ParseUint_base0_iff _ v).mp hp
    simp only [prefixedValue, detectBase_zero_digit d rest h0 h9] at hdig hv
    exact ⟨hdig, hv⟩
  have notOctal : ∀ c : Char, c = '8' ∨ c = '9' → ¬ (c = '_' ∨ (digitOf 8 c).isSome = true) := by
    rintro c (rfl | rfl) <;> decide
  have failOk : ∀ (fs : List String) (i : Nat) (b : Nat),
      (i = 3 ∧ b = 16 ∨ i = 7 ∧ b = 0) → ¬ validUint (field fs i) b →
      ∀ e, parseNetIPSocketLine fs false ≠ .ok e := by
    intro fs i b hib hbad e he
    obtain ⟨_, _, _, hst, _, _, _, huid, _, _⟩ := (parse_ok_iff fs false e).mp he
    rcases hib with ⟨rfl, rfl⟩ | ⟨rfl, rfl⟩
    · exact hbad (by unfold validUint; rw [hst])
    · exact hbad (by unfold validUint; rw [huid])
  refine ⟨octal, ?_, ?_, ?_, ⟨by decide, by decide, by decide, ?_, ?_⟩, ⟨?_, by decide, ?_⟩⟩
  · intro d rest h0 h9 h89 hvalid
    have hp : ParseUint (String.mk ('0' :: d :: rest)) 0 64 =
        ((ParseUint (String.mk ('0' :: d :: rest)) 0 64).1, none) := Prod.ext rfl hvalid
    have hdig := (octal d rest _ h0 h9 hp).1
    rcases h89 with h | h
    · exact notOctal '8' (Or.inl rfl) (hdig _ h)
    · exact notOctal '9' (Or.inr rfl) (hdig _ h)
  · intro c rest v hc hp
    obtain ⟨⟨_, hdig, _, _⟩, hv⟩ := (ParseUint_base0_iff _ v).mp hp
    simp only [prefixedValue, detectBase_of_ne_zero c rest hc] at hdig hv
    exact ⟨hdig, hv⟩
  · intro p c rest v hpx hp
    obtain ⟨⟨_, hdig, _, _⟩, hv⟩ := (ParseUint_base0_iff _ v).mp hp
    have hdet : detectBase ('0' :: p :: c :: rest) = (16, c :: rest) := by
      rcases hpx with rfl | rfl <;> rfl
    simp only [prefixedValue, hdet] at hdig hv
    exact ⟨hdig, hv⟩
  · exact failOk _ 7 0 (Or.inr ⟨rfl, rfl⟩) (by decide)
  · exact failOk _ 7 0 (Or.inr ⟨rfl, rfl⟩) (by decide)
  · intro p rest hpx hvalid
    have hhex := (validUint_hex_iff _).mp hvalid
    have := hhex.2.1 p (by simp)
    rcases hpx with rfl | rfl <;> exact absurd this (by decide)
  · exact failOk _ 3 16 (Or.inl ⟨rfl, rfl⟩) (by decide)

/-- Witness for `ParseUint_base_detection`: `0755` is 493, `0778` is
refused, `755` is 755 and `0x1F` is 31. -/
theorem ParseUint_base_detection_witness :
    ((∀ c ∈ ['7', '5', '5'], c = '_' ∨ (digitOf 8 c).isSome = true) ∧
      493 = accValue 8 true 0 ['7', '5', '5']) ∧
    ¬ validUint (String.mk ['0', '7', '7', '8']) 0 ∧
    ((∀ x ∈ ['7', '5', '5'], x = '_' ∨ (digitOf 10 x).isSome = true) ∧
      755 = accValue 10 true 0 ['7', '5', '5']) ∧
    ((∀ x ∈ ['1', 'F'], x = '_' ∨ (digitOf 16 x).isSome = true) ∧
      31 = accValue 16 true 0 ['1', 'F']) ∧
    ¬ validUint (String.mk ['0', 'x', '0', 'A']) 16 :=
  ⟨ParseUint_base_detection.1 '7' ['5', '5'] 493 (by decide) (by decide) (by decide),
   ParseUint_base_detection.2.1 '7' ['7', '8'] (by decide) (by decide) (by decide),
   ParseUint_base_detection.2.2.1 '7' ['5', '5'] 755 (by decide) (by decide),
   ParseUint_base_detection.2.2.2.1 'x' '1' ['F'] 31 (Or.inl rfl) (by decide),
   ParseUint_base_detection.2.2.2.2.2.1 'x' ['0', 'A'] (Or.inl rfl)⟩

/-- C17: on success each number of the entry is the value of its numeral
(read in base 16 for state and queues, in the base of the prefix for slot,
uid, inode and drops) and is at most `2 ^ 64 - 1`; so a numeral of value
`2 ^ 64` or more in one of these fields makes the decode fail.  A state of
seventeen hexadecimal digits `10000000000000000` gives an out-of-range error
and no entry; `FFFFFFFFFFFFFFFF` is accepted as `2 ^ 64 - 1`. -/
theorem parseNetIPSocketLine_no_wraparound (fields : List String) (isUDP : Bool) :
    (∀ e, parseNetIPSocketLine fields isUDP = .ok e →
      (e.Sl = prefixedValue (before (field fields 0) ':') ∧ e.Sl ≤ 2 ^ 64 - 1) ∧
      (e.St = hexValue (field fields 3) ∧ e.St ≤ 2 ^ 64 - 1) ∧
      (e.TxQueue = hexValue (before (field fields 4) ':') ∧ e.TxQueue ≤ 2 ^ 64 - 1) ∧
      (e.RxQueue = hexValue (after (field fields 4) ':') ∧ e.RxQueue ≤ 2 ^ 64 - 1) ∧
      (e.UID = prefixedValue (field fields 7) ∧ e.UID ≤ 2 ^ 64 - 1) ∧
      (e.Inode = prefixedValue (field fields 9) ∧ e.Inode ≤ 2 ^ 64 - 1) ∧
      (∀ d, e.Drops = some d → d = prefixedValue (field fields 12) ∧ d ≤ 2 ^ 64 - 1)) ∧
    ((2 ^ 64 ≤ prefixedValue (before (field fields 0) ':') ∨ 2 ^ 64 ≤ hexValue (field fields 3) ∨
        2 ^ 64 ≤ hexValue (before (field fields 4) ':') ∨
        2 ^ 64 ≤ hexValue (after (field fields 4) ':') ∨
        2 ^ 64 ≤ prefixedValue (field fields 7) ∨ 2 ^ 64 ≤ prefixedValue (field fields 9) ∨
        (isUDP = true ∧ 2 ^ 64 ≤ prefixedValue (field fields 12))) →
      ∀ e, parseNetIPSocketLine fields isUDP ≠ .ok e) ∧
    parseNetIPSocketLine ((sampleFields "0:").set 3 "10000000000000000") false =
      .error (.error (Errorf "%s: Cannot parse st value in %q: %w"
        [.err (.sentinel .ErrFileParse), .uint (2 ^ 64 - 1),
         .err (.numError "ParseUint" "10000000000000000" (.sentinel .ErrRange))])) ∧
    parseNetIPSocketLine ((sampleFields "0:").set 3 "FFFFFFFFFFFFFFFF") false =
      .ok { Sl := 0, St := 2 ^ 64 - 1, TxQueue := 0, RxQueue := 0, UID := 101, Inode := 24695,
            Drops := none } := by
  refine ⟨?_, ?_, by decide, by decide⟩
  · intro e he
    obtain ⟨h1, h2, h3, h4, h5, h6, h7⟩ := parse_ok_values fields isUDP e he
    refine ⟨⟨h1.1, by omega⟩, ⟨h2.1, by omega⟩, ⟨h3.1, by omega⟩, ⟨h4.1, by omega⟩,
      ⟨h5.1, by omega⟩, ⟨h6.1, by omega⟩, fun d hd => ⟨(h7 d hd).1, ?_⟩⟩
    have := (h7 d hd).2
    omega
  · intro hbig e he
    obtain ⟨h1, h2, h3, h4, h5, h6, h7⟩ := parse_ok_values fields isUDP e he
    rcases hbig with h | h | h | h | h | h | ⟨hu, h⟩
    · rw [← h1.1] at h; omega
    · rw [← h2.1] at h; omega
    · rw [← h3.1] at h; omega
    · rw [← h4.1] at h; omega
    · rw [← h5.1] at h; omega
    · rw [← h6.1] at h; omega
    · subst hu
      obtain ⟨d, _, _, hdrops⟩ := ((parse_ok_iff fields true e).mp he).2.2.2.2.2.2.2.2.2
      have := h7 d hdrops
      rw [← this.1] at h
      omega

/-- Witness for `parseNetIPSocketLine_no_wraparound`: the values of the
sample UDP row, and a uid of `2 ^ 64` in decimal, which is refused. -/
theorem parseNetIPSocketLine_no_wraparound_witness :
    ((731 = prefixedValue (before (field (Fields sampleUdpRow) 0) ':') ∧ 731 ≤ 2 ^ 64 - 1) ∧
      (7 = hexValue (field (Fields sampleUdpRow) 3) ∧ 7 ≤ 2 ^ 64 - 1) ∧
      (0 = hexValue (before (field (Fields sampleUdpRow) 4) ':') ∧ 0 ≤ 2 ^ 64 - 1) ∧
      (0 = hexValue (after (field (Fields sampleUdpRow) 4) ':') ∧ 0 ≤ 2 ^ 64 - 1) ∧
      (0 = prefixedValue (field (Fields sampleUdpRow) 7) ∧ 0 ≤ 2 ^ 64 - 1) ∧
      (21040 = prefixedValue (field (Fields sampleUdpRow) 9) ∧ 21040 ≤ 2 ^ 64 - 1) ∧
      (∀ d, some 0 = some d →
        d = prefixedValue (field (Fields sampleUdpRow) 12) ∧ d ≤ 2 ^ 64 - 1)) ∧
    (∀ e, parseNetIPSocketLine ((sampleFields "0:").set 7 "18446744073709551616") false ≠
      .ok e) :=
  ⟨(parseNetIPSocketLine_no_wraparound (Fields sampleUdpRow) true).1
      ⟨731, 7, 0, 0, 0, 21040, some 0⟩ (by decide),
   (parseNetIPSocketLine_no_wraparound ((sampleFields "0:").set 7 "18446744073709551616")
      false).2.1 (Or.inr (Or.inr (Or.inr (Or.inr (Or.inl (by decide))))))⟩

/-- C18: with `isUDP = false`, whatever the list of fields,
`parseNetIPSocketLine` returns an entry or an error; it never ends in an index
out of range. -/
theorem parseNetIPSocketLine_tcp_total (fields : List String) :
    ((∃ e, parseNetIPSocketLine fields false = .ok e) ∨
      (∃ err, parseNetIPSocketLine fields false = .error (.error err))) ∧
    (∀ i n, parseNetIPSocketLine fields false ≠ .error (.panic i n)) := by
  refine ⟨?_, parse_tcp_no_panic fields⟩
  rcases h : parseNetIPSocketLine fields false with fault | e
  · rcases fault with err | ⟨i, n⟩
    · exact Or.inr ⟨err, rfl⟩
    · exact absurd h (parse_tcp_no_panic fields i n)
  · exact Or.inl ⟨e, rfl⟩

/-- C19: a source that opens, scans without error and has no line or only
one line gives the empty table, whatever its path. -/
theorem NewNetIPSocket_no_rows (osOpen : String → Except GoError Scanner) (file : String)
    (lines : List String) (hopen : osOpen file = .ok { lines := lines, err := none })
    (hlen : lines.length ≤ 1) :
    NewNetIPSocket osOpen file = .ok [] := by
  have hdrop : lines.drop 1 = [] := by
    rcases lines with _ | ⟨a, _ | ⟨b, rest⟩⟩
    · rfl
    · rfl
    · simp at hlen
  rw [NewNetIPSocket_eq_readRows osOpen file _ hopen]
  simp only [hdrop]
  rfl

/-- Witness for `NewNetIPSocket_no_rows`: an empty file under a UDP path
and a file with only the header under a TCP path. -/
theorem NewNetIPSocket_no_rows_witness :
    NewNetIPSocket (sampleOpen []) "/proc/net/udp" = .ok [] ∧
    NewNetIPSocket (sampleOpen [sampleHeader]) "/proc/net/tcp" = .ok [] :=
  ⟨NewNetIPSocket_no_rows (sampleOpen []) "/proc/net/udp" [] rfl (by decide),
   NewNetIPSocket_no_rows (sampleOpen [sampleHeader]) "/proc/net/tcp" [sampleHeader] rfl
    (by decide)⟩

end Proc
